import Mathlib

/-!
Verification of the C runtime core (tagged-pointer heap, copying GC,
signal spine, dynamic binding stack) against its specification.

The development shallowly embeds the relevant C functions from
`src/runtime` (gc-common.c, dynbind.c, interrupt.c, purify.c, thread.c)
as executable Lean definitions over explicit state records, and proves
the specified properties about them.

Configuration assumed throughout (the build the repository targets):
`LISP_FEATURE_X86_64`, `LISP_FEATURE_GENCGC`, `LISP_FEATURE_SB_THREAD`,
`lispobj` is `u32` (so `N_WORD_BYTES = 4`, a cons is 8 bytes), and
`__i386__` is not defined.
-/

namespace SbclRuntime

/-! ## Tag model (runtime.h) -/

/-- `N_LOWTAG_BITS` is 3, so `LOWTAG_MASK = 7` (runtime.h). -/
def LOWTAG_MASK : Nat := 7

/-- `lowtag_of(obj) = obj & LOWTAG_MASK` (runtime.h). -/
def lowtag_of (obj : Nat) : Nat := obj % 8

/-- `N_WIDETAG_BITS` is 8, so `WIDETAG_MASK = 255` (runtime.h). -/
def widetag_of (obj : Nat) : Nat := obj % 256

/-- `is_lisp_pointer(obj) = obj & 1` (runtime.h): odd words are pointers. -/
def is_lisp_pointer (obj : Nat) : Bool := obj % 2 == 1

/-- `native_pointer(obj) = obj & ~LOWTAG_MASK` (runtime.h). -/
def native_pointer (obj : Nat) : Nat := obj - obj % 8

/-- `make_lispobj(o, low_tag) = o | low_tag` on an 8-aligned address
(runtime.h); for aligned `o` the bitwise or is addition. -/
def make_lispobj (o tag : Nat) : Nat := o + tag

/-- `fixnum_value(n) = n >> 2` (runtime.h, nonnegative case). -/
def fixnum_value (n : Nat) : Nat := n / 4

/-- `make_fixnum(n) = n << 2` (runtime.h). -/
def make_fixnum (n : Nat) : Nat := n * 4

/-- Lowtag constants of this build: the four pointer lowtags are the odd
residues, fixnums are 0 and 4, other-immediates 2 and 6. -/
def EVEN_FIXNUM_LOWTAG : Nat := 0

def INSTANCE_POINTER_LOWTAG : Nat := 1

def OTHER_IMMEDIATE_0_LOWTAG : Nat := 2

def LIST_POINTER_LOWTAG : Nat := 3

def ODD_FIXNUM_LOWTAG : Nat := 4

def FUN_POINTER_LOWTAG : Nat := 5

def OTHER_IMMEDIATE_1_LOWTAG : Nat := 6

def OTHER_POINTER_LOWTAG : Nat := 7

/-- Modelled from the spec: the canonical nil reference (`NIL`), a
list-pointer into static space.  Its numeric value comes from the
generated static-space layout, which is not part of the source tree;
only its lowtag and its not lying in from-space matter below. -/
def NIL_ref : Nat := 0x2800000B

/-- Modelled from the spec: the canonical true reference (`T`), an
other-pointer into static space (generated layout, not in the tree). -/
def T_ref : Nat := 0x2800002F

/-! ## Word memory

Word-addressed byte-indexed memory: `lispobj` words live at 4-byte
aligned addresses; a cons cell at native address `a` has its car at `a`
and its cdr at `a + 4` (`lispobj` is `u32`). -/

/-- Machine memory: a word of content for every (4-aligned) address. -/
def Mem : Type := Nat → Nat

/-- Write one word. -/
def writeWord (m : Mem) (a v : Nat) : Mem := fun x => if x = a then v else m x

/-! ## Dynamic binding stack (dynbind.c)

The binding stack is an array of `struct binding { value; symbol; }`
records; `current_binding_stack_pointer` indexes the next free record
(the `__i386__` branch that keeps the pointer in a symbol is not taken
on this build).  Symbol values are read and written through
`SymbolValue`/`SetSymbolValue`.

Modelled from the spec: `SymbolValue`/`SetSymbolValue` (defined in the
generated `genesis/thread.h`, absent from the tree) read and write the
per-thread value cell of a symbol; we model them as lookup and update in
a per-thread map from symbols to values. -/

/-- One `struct binding` record (dynbind.h): saved value and symbol. -/
structure Binding where
  value : Nat
  symbol : Nat
  deriving Repr, DecidableEq

/-- Per-thread state touched by dynbind.c: the symbol-value map, the
binding-stack contents, and the binding stack pointer (an index into
`bindings`, counting records). -/
structure DynState where
  symValue : Nat → Nat
  bindings : Nat → Binding
  bsp : Nat

/-- Update one symbol's value (`SetSymbolValue`). -/
def setSymbolValue (st : DynState) (sym v : Nat) : DynState :=
  { st with symValue := fun s => if s = sym then v else st.symValue s }

/-- Write one binding record. -/
def writeBinding (st : DynState) (i : Nat) (b : Binding) : DynState :=
  { st with bindings := fun j => if j = i then b else st.bindings j }

/-- `bind_variable(symbol, value, th)` (dynbind.c:30): read the old
value, push a `(old value, symbol)` record at the binding stack pointer,
advance the pointer, store the new value. -/
def bind_variable (symbol value : Nat) (st : DynState) : DynState :=
  let old_value := st.symValue symbol
  let binding := st.bsp
  let st := { st with bsp := binding + 1 }
  let st := writeBinding st binding ⟨old_value, symbol⟩
  setSymbolValue st symbol value

/-- `unbind(th)` (dynbind.c:45): pop one record, restore the saved value
into its symbol, clear the record's symbol field, retreat the pointer. -/
def unbind (st : DynState) : DynState :=
  let binding := st.bsp - 1
  let symbol := (st.bindings binding).symbol
  let st := setSymbolValue st symbol (st.bindings binding).value
  let st := writeBinding st binding ⟨(st.bindings binding).value, 0⟩
  { st with bsp := binding }

/-- One iteration step of the `unbind_to_here` loop (dynbind.c:71-81),
acting at record index `binding - 1`; also records the `(symbol, saved
value)` restore it performed, if any. -/
def unbindToHereStep (st : DynState) (binding : Nat) :
    DynState × Option (Nat × Nat) :=
  let b := binding - 1
  let symbol := (st.bindings b).symbol
  if symbol ≠ 0 then
    let saved := (st.bindings b).value
    let st := setSymbolValue st symbol saved
    let st := writeBinding st b ⟨(st.bindings b).value, 0⟩
    (st, some (symbol, saved))
  else
    (st, none)

/-- The `while (target < binding)` loop of `unbind_to_here`, running for
`n` iterations with the local cursor `binding`; returns the final state
together with the trace of `(symbol, saved value)` restores performed,
in execution order.  The final `SetBSP(binding)` is applied when the
count runs out. -/
def unbindToHereLoop : Nat → DynState → Nat → DynState × List (Nat × Nat)
  | 0, st, binding => ({ st with bsp := binding }, [])
  | n + 1, st, binding =>
      let (st, r) := unbindToHereStep st binding
      let (st, tr) := unbindToHereLoop n st (binding - 1)
      (st, r.toList ++ tr)

/-- `unbind_to_here(bsp, th)` (dynbind.c:63): pop records while the
cursor is above `target`, restoring each record whose symbol field is
nonzero; the loop body runs `bsp - target` times (truncated
subtraction: zero times when `target ≥ bsp`, exactly as the C guard
`target < binding` decides). -/
def unbind_to_here (target : Nat) (st : DynState) :
    DynState × List (Nat × Nat) :=
  unbindToHereLoop (st.bsp - target) st st.bsp

/-- Declarative description of the restores the loop performs starting
from cursor `binding` for `n` iterations: the records at indices
`binding - 1`, `binding - 2`, …, in that order, skipping cleared (zero)
symbol fields, each contributing its symbol and saved value. -/
def loopRestores (st : DynState) (binding n : Nat) : List (Nat × Nat) :=
  (List.range n).filterMap (fun i =>
    if (st.bindings (binding - 1 - i)).symbol ≠ 0 then
      some ((st.bindings (binding - 1 - i)).symbol,
            (st.bindings (binding - 1 - i)).value)
    else none)

/-- Declarative description of the restores `unbind_to_here` must
perform: records from index `bsp - 1` down to `target`, skipping cleared
(zero) symbol fields. -/
def expectedRestores (st : DynState) (target : Nat) : List (Nat × Nat) :=
  loopRestores st st.bsp (st.bsp - target)

/-- Apply a list of `(symbol, value)` restores to a symbol-value map, in
order (later restores of the same symbol win). -/
def applyRestores (f : Nat → Nat) : List (Nat × Nat) → (Nat → Nat)
  | [] => f
  | (s, v) :: tr => applyRestores (fun x => if x = s then v else f x) tr

/-! ## Concrete states used as witnesses -/

/-! ## Forwarding pointers (gc-common.c:55-83, GENCGC variant)

Under `LISP_FEATURE_GENCGC` a forwarded object carries the magic word
`0x01` in its first slot and the new-space reference in its second slot
(byte offset 4, since `lispobj` is `u32`). -/

/-- `forwarding_pointer_p(pointer)` (gc-common.c:55): first word is 1. -/
def forwarding_pointer_p (mem : Mem) (pointer : Nat) : Bool :=
  mem pointer == 1

/-- `forwarding_pointer_value(pointer)` (gc-common.c:66): the word at
offset 1. -/
def forwarding_pointer_value (mem : Mem) (pointer : Nat) : Nat :=
  mem (pointer + 4)

/-- `set_forwarding_pointer(pointer, copy)` (gc-common.c:74): write the
magic word and the destination. -/
def set_forwarding_pointer (mem : Mem) (pointer newspace_copy : Nat) : Mem :=
  writeWord (writeWord mem pointer 1) (pointer + 4) newspace_copy

/-! ## Weak-pointer fixup (gc-common.c scan_weak_pointers) -/

/-- The fields of `struct weak_pointer` that `scan_weak_pointers`
touches: the value slot and the broken flag. -/
structure WeakPointer where
  value : Nat
  broken : Nat
  deriving Repr, DecidableEq

/-- The body of the `scan_weak_pointers` loop (gc-common.c:1522-1544)
for one weak pointer on the per-GC list: a value slot that is not a
pointer into from-space is left alone; a forwarded referent updates the
value slot with the forwarding destination; otherwise the value slot
becomes `NIL` and the broken flag becomes `T`. -/
def scan_weak_pointer (mem : Mem) (from_space_p : Nat → Bool)
    (wp : WeakPointer) : WeakPointer :=
  let value := wp.value
  if ¬(is_lisp_pointer value = true ∧ from_space_p value = true) then wp
  else
    let first_pointer := native_pointer value
    if forwarding_pointer_p mem first_pointer then
      { wp with value := forwarding_pointer_value mem first_pointer }
    else
      { value := NIL_ref, broken := T_ref }

/-- `scan_weak_pointers()` (gc-common.c:1519): walk the per-GC list of
transported weak pointers, post-processing each. -/
def scan_weak_pointers (mem : Mem) (from_space_p : Nat → Bool)
    (wps : List WeakPointer) : List WeakPointer :=
  wps.map (scan_weak_pointer mem from_space_p)

/-! ## List transport (gc-common.c trans_list) -/

/-- GC heap state during transport: the word memory and the allocation
free pointer of the boxed region. -/
structure GcState where
  mem : Mem
  free : Nat

/-- Modelled from the spec: `gc_general_alloc(sizeof(struct cons),
ALLOC_BOXED, ALLOC_QUICK)` — the allocator itself (gc-internal.h /
gencgc.c) is not in the tree; per the spec's transport section, cons
cells are bump-allocated consecutively in the boxed region, so a
cons-sized request returns the free pointer and advances it by 8
bytes. -/
def gc_alloc_cons (st : GcState) : GcState × Nat :=
  ({ st with free := st.free + 8 }, st.free)

/-- The linearization loop of `trans_list` (gc-common.c:560-587): while
the cdr is an un-forwarded from-space cons, copy it right after the
previous copy, install its forwarding pointer, and chain the previous
new cell's cdr to it.  `fuel` bounds the number of loop entries;
`new_cons` is the native address of the most recently copied cell. -/
def trans_list_loop (from_space_p : Nat → Bool) :
    Nat → GcState → Nat → Nat → GcState
  | 0, st, _, _ => st
  | fuel + 1, st, cdr, new_cons =>
      if lowtag_of cdr ≠ LIST_POINTER_LOWTAG ∨ from_space_p cdr = false ∨
          forwarding_pointer_p st.mem (native_pointer cdr) = true then
        st
      else
        let cdr_cons := native_pointer cdr
        let st1b := gc_alloc_cons st
        let st1 := st1b.1
        let b := st1b.2
        let m1 := writeWord st1.mem b (st1.mem cdr_cons)
        let m2 := writeWord m1 (b + 4) (m1 (cdr_cons + 4))
        let new_cdr := make_lispobj b (lowtag_of cdr)
        let cdr2 := m2 (cdr_cons + 4)
        let m3 := set_forwarding_pointer m2 cdr_cons new_cdr
        let m4 := writeWord m3 (new_cons + 4) new_cdr
        trans_list_loop from_space_p fuel { st1 with mem := m4 } cdr2 b

/-- `trans_list(object)` (gc-common.c:537): copy the head cons, install
its forwarding pointer, then linearize along the cdr chain; returns the
new state and the new tagged reference for the head. -/
def trans_list (from_space_p : Nat → Bool) (fuel : Nat) (st : GcState)
    (object : Nat) : GcState × Nat :=
  let cons := native_pointer object
  let st1b := gc_alloc_cons st
  let st1 := st1b.1
  let b := st1b.2
  let m1 := writeWord st1.mem b (st1.mem cons)
  let m2 := writeWord m1 (b + 4) (m1 (cons + 4))
  let new_list_pointer := make_lispobj b (lowtag_of object)
  let cdr := m2 (cons + 4)
  let m3 := set_forwarding_pointer m2 cons new_list_pointer
  (trans_list_loop from_space_p fuel { st1 with mem := m3 } cdr b,
   new_list_pointer)

/-- The loop argument fed to `trans_list_loop`: the next chain cell, or
the terminal cdr value when the chain is exhausted. -/
def chainCdr (ps : List Nat) (t : Nat) : Nat :=
  match ps with
  | [] => t
  | q :: _ => q

/-- A from-space cons chain, as found in state `st`: every cell is a
list pointer into from-space, not yet forwarded, lying (with both its
words) strictly below `bound`, with distinct cell addresses, and each
cell's cdr word holds the next cell (or the terminal value `t`). -/
def chainCells (st : GcState) (from_space_p : Nat → Bool) (bound : Nat) :
    List Nat → Nat → Prop
  | [], _ => True
  | q :: qs, t =>
      lowtag_of q = LIST_POINTER_LOWTAG ∧ from_space_p q = true ∧
      st.mem (native_pointer q) ≠ 1 ∧ native_pointer q + 8 ≤ bound ∧
      st.mem (native_pointer q + 4) = chainCdr qs t ∧
      (∀ q' ∈ qs, native_pointer q' ≠ native_pointer q) ∧
      chainCells st from_space_p bound qs t

/-- The terminal cdr `t` stops the linearization loop: it is a non-list
value, a pointer outside from-space, or an already-forwarded cons (whose
forwarding word lies below the allocation frontier, so the copying never
disturbs it). -/
def termCond (st : GcState) (from_space_p : Nat → Bool) (t : Nat) : Prop :=
  lowtag_of t ≠ LIST_POINTER_LOWTAG ∨ from_space_p t = false ∨
  (st.mem (native_pointer t) = 1 ∧ native_pointer t < st.free)

/-- The post-state of a successful linearization of the chain `ps` into
consecutive new cells at `F, F+8, …`: each new cell holds the original
car, chains to the next new cell (the last one holding the terminal cdr
`t`), and each original cell carries a forwarding pointer to its copy. -/
def copiedChain (mF m0 : Mem) (F : Nat) : List Nat → Nat → Prop
  | [], _ => True
  | q :: qs, t =>
      mF F = m0 (native_pointer q) ∧
      mF (F + 4) = (match qs with | [] => t | _ :: _ => F + 8 + 3) ∧
      mF (native_pointer q) = 1 ∧
      mF (native_pointer q + 4) = F + 3 ∧
      copiedChain mF m0 (F + 8) qs t

/-- The state after restoring the record at index `b`: the record's
symbol takes its saved value and the record's symbol field is cleared
(composition of the `SetSymbolValue` and `binding->symbol = 0` writes of
one live `unbind_to_here` iteration). -/
def unbindRestoreState (st : DynState) (b : Nat) : DynState :=
  { symValue := fun s =>
      if s = (st.bindings b).symbol then (st.bindings b).value
      else st.symValue s
    bindings := fun j =>
      if j = b then ⟨(st.bindings b).value, 0⟩ else st.bindings j
    bsp := st.bsp }

/-- A concrete dynamic-binding state with three live binding records. -/
def dynW : DynState :=
  { symValue := fun s => 100 + s
    bindings := fun i =>
      if i = 0 then ⟨7, 2⟩ else if i = 1 then ⟨8, 0⟩ else if i = 2 then ⟨9, 2⟩
      else ⟨0, 0⟩
    bsp := 3 }

/-! ## Purify (purify.c) -/

/-- The runtime state `purify` observes and transforms: the raw value of
`FREE_INTERRUPT_CONTEXT_INDEX`, the read-only and static free pointers,
and the dynamic-space contents. -/
structure PurifyState where
  free_interrupt_context_index : Nat
  read_only_free : Nat
  static_free : Nat
  dynamic_space : Mem

/-- `purify(static_roots, read_only_roots)` (purify.c:1291): when
`fixnum_value(SymbolValue(FREE_INTERRUPT_CONTEXT_INDEX))` is nonzero it
reports the refusal and returns 0 with no state change (the code before
the check only prints); otherwise it performs the full traversal and
cleanup (root/handler/stack/binding scavenging, the static-space sweep
with deferred later-blocks, dynamic-space zeroing and free-pointer
updates, purify.c:1312-1453), here abstracted as the transformation
`body`, and returns 0 (purify.c:1460). Both `return` statements of the
source return 0. -/
def purify (body : Nat → Nat → PurifyState → PurifyState)
    (static_roots read_only_roots : Nat) (st : PurifyState) :
    PurifyState × Int :=
  if fixnum_value st.free_interrupt_context_index ≠ 0 then (st, 0)
  else (body static_roots read_only_roots st, 0)

/-! ## Signal deferral (interrupt.c maybe_defer_handler)

Per-thread interrupt state.  `interrupts_enabled` abstracts
`SymbolValue(INTERRUPTS_ENABLED) ≠ NIL`; `interrupt_pending` abstracts
`SymbolValue(INTERRUPT_PENDING) ≠ NIL`; `pseudo_atomic_atomic` and
`pseudo_atomic_interrupted` abstract `arch_pseudo_atomic_atomic` and
`arch_set_pseudo_atomic_interrupted` (the arch module is outside the
tree; on this port they read and set per-thread flags).  The build is
not `LISP_FEATURE_X86`, so the `foreign_function_call_active` guard on
the pseudo-atomic branch (interrupt.c:481-483) is compiled in.
`siginfo_t` contents and signal masks are abstracted as opaque words;
`sigaddset_blockable` (interrupt.c:510) is abstracted as a function on
masks. -/
structure IntrState where
  interrupts_enabled : Bool
  interrupt_pending : Bool
  foreign_function_call_active : Bool
  pseudo_atomic_atomic : Bool
  pseudo_atomic_interrupted : Bool
  pending_handler : Nat
  pending_signal : Nat
  pending_info : Nat
  pending_mask : Nat
  context_sigmask : Nat
  deriving Repr, DecidableEq

/-- `store_signal_data_for_later(data, handler, signal, info, context)`
(interrupt.c:491), in the signal-handler path where `info` and
`context` are non-null: record the handler, signal number and siginfo,
copy the interrupted signal mask out of the context into the pending
record, and add the blockable signals to the context's mask. -/
def store_signal_data_for_later (add_blockable : Nat → Nat)
    (handler signal info : Nat) (st : IntrState) : IntrState :=
  { st with
      pending_handler := handler
      pending_signal := signal
      pending_info := info
      pending_mask := st.context_sigmask
      context_sigmask := add_blockable st.context_sigmask }

/-- `maybe_defer_handler(handler, data, signal, info, context)`
(interrupt.c:467): with interrupts disabled, store the signal data, set
the interrupt-pending bit and return 1; otherwise, when not in a
foreign call and pseudo-atomic is set, store the signal data, set the
pseudo-atomic-interrupted flag and return 1; otherwise return 0. -/
def maybe_defer_handler (add_blockable : Nat → Nat)
    (handler signal info : Nat) (st : IntrState) : IntrState × Bool :=
  if st.interrupts_enabled = false then
    let st := store_signal_data_for_later add_blockable handler signal info st
    ({ st with interrupt_pending := true }, true)
  else if st.foreign_function_call_active = false ∧
      st.pseudo_atomic_atomic = true then
    let st := store_signal_data_for_later add_blockable handler signal info st
    ({ st with pseudo_atomic_interrupted := true }, true)
  else
    (st, false)

/-- A thread state that is inside a pseudo-atomic region with interrupts
enabled and no interrupt pending. -/
def intrPA : IntrState :=
  { interrupts_enabled := true
    interrupt_pending := false
    foreign_function_call_active := false
    pseudo_atomic_atomic := true
    pseudo_atomic_interrupted := false
    pending_handler := 0
    pending_signal := 0
    pending_info := 0
    pending_mask := 0
    context_sigmask := 5 }

/-- A thread state with interrupts disabled (outside pseudo-atomic). -/
def intrDis : IntrState :=
  { intrPA with
      interrupts_enabled := false
      pseudo_atomic_atomic := false }

/-! ## Dispatch tables (gc-common.c gc_init_tables)

Modelled from the spec: the numeric widetag constants come from the
generated `genesis/constants.h`, which is not in the tree.  Per the
spec's tag model, widetags are header tags carrying one of the two
other-immediate lowtags (2 and 6), i.e. every widetag is ≡ 2 (mod 4),
they are distinct, and they fit in 8 bits; they are assigned here in
sequence, in steps of 4, for the object kinds the spec lists for this
32-bit-word configuration (no long floats, no 60/63/64-bit element
vectors). -/

def BIGNUM_WIDETAG : Nat := 0x0a

def RATIO_WIDETAG : Nat := 0x0e

def SINGLE_FLOAT_WIDETAG : Nat := 0x12

def DOUBLE_FLOAT_WIDETAG : Nat := 0x16

def COMPLEX_WIDETAG : Nat := 0x1a

def COMPLEX_SINGLE_FLOAT_WIDETAG : Nat := 0x1e

def COMPLEX_DOUBLE_FLOAT_WIDETAG : Nat := 0x22

def SIMPLE_FUN_HEADER_WIDETAG : Nat := 0x26

def CLOSURE_HEADER_WIDETAG : Nat := 0x2a

def FUNCALLABLE_INSTANCE_HEADER_WIDETAG : Nat := 0x2e

def RETURN_PC_HEADER_WIDETAG : Nat := 0x32

def VALUE_CELL_HEADER_WIDETAG : Nat := 0x36

def SYMBOL_HEADER_WIDETAG : Nat := 0x3a

def CHARACTER_WIDETAG : Nat := 0x3e

def SAP_WIDETAG : Nat := 0x42

def UNBOUND_MARKER_WIDETAG : Nat := 0x46

def WEAK_POINTER_WIDETAG : Nat := 0x4a

def INSTANCE_HEADER_WIDETAG : Nat := 0x4e

def FDEFN_WIDETAG : Nat := 0x52

def NO_TLS_VALUE_MARKER_WIDETAG : Nat := 0x56

def SIMPLE_ARRAY_WIDETAG : Nat := 0x5a

def SIMPLE_BASE_STRING_WIDETAG : Nat := 0x5e

def SIMPLE_CHARACTER_STRING_WIDETAG : Nat := 0x62

def SIMPLE_BIT_VECTOR_WIDETAG : Nat := 0x66

def SIMPLE_VECTOR_WIDETAG : Nat := 0x6a

def SIMPLE_ARRAY_NIL_WIDETAG : Nat := 0x6e

def SIMPLE_ARRAY_UNSIGNED_BYTE_2_WIDETAG : Nat := 0x72

def SIMPLE_ARRAY_UNSIGNED_BYTE_4_WIDETAG : Nat := 0x76

def SIMPLE_ARRAY_UNSIGNED_BYTE_7_WIDETAG : Nat := 0x7a

def SIMPLE_ARRAY_UNSIGNED_BYTE_8_WIDETAG : Nat := 0x7e

def SIMPLE_ARRAY_UNSIGNED_BYTE_15_WIDETAG : Nat := 0x82

def SIMPLE_ARRAY_UNSIGNED_BYTE_16_WIDETAG : Nat := 0x86

def SIMPLE_ARRAY_UNSIGNED_BYTE_29_WIDETAG : Nat := 0x8a

def SIMPLE_ARRAY_UNSIGNED_BYTE_31_WIDETAG : Nat := 0x8e

def SIMPLE_ARRAY_UNSIGNED_BYTE_32_WIDETAG : Nat := 0x92

def SIMPLE_ARRAY_SIGNED_BYTE_8_WIDETAG : Nat := 0x96

def SIMPLE_ARRAY_SIGNED_BYTE_16_WIDETAG : Nat := 0x9a

def SIMPLE_ARRAY_SIGNED_BYTE_30_WIDETAG : Nat := 0x9e

def SIMPLE_ARRAY_SIGNED_BYTE_32_WIDETAG : Nat := 0xa2

def SIMPLE_ARRAY_SINGLE_FLOAT_WIDETAG : Nat := 0xa6

def SIMPLE_ARRAY_DOUBLE_FLOAT_WIDETAG : Nat := 0xaa

def SIMPLE_ARRAY_COMPLEX_SINGLE_FLOAT_WIDETAG : Nat := 0xae

def SIMPLE_ARRAY_COMPLEX_DOUBLE_FLOAT_WIDETAG : Nat := 0xb2

def COMPLEX_BASE_STRING_WIDETAG : Nat := 0xb6

def COMPLEX_CHARACTER_STRING_WIDETAG : Nat := 0xba

def COMPLEX_VECTOR_NIL_WIDETAG : Nat := 0xbe

def COMPLEX_BIT_VECTOR_WIDETAG : Nat := 0xc2

def COMPLEX_VECTOR_WIDETAG : Nat := 0xc6

def COMPLEX_ARRAY_WIDETAG : Nat := 0xca

def CODE_HEADER_WIDETAG : Nat := 0xce

/-- The scavenge handlers `gc_init_tables` installs in `scavtab`, one
constructor per C function. -/
inductive ScavFn where
  | scav_lose
  | scav_immediate
  | scav_fun_pointer
  | scav_list_pointer
  | scav_instance_pointer
  | scav_other_pointer
  | scav_unboxed
  | scav_boxed
  | scav_base_string
  | scav_character_string
  | scav_vector_bit
  | scav_vector_nil
  | scav_vector_unsigned_byte_2
  | scav_vector_unsigned_byte_4
  | scav_vector_unsigned_byte_8
  | scav_vector_unsigned_byte_16
  | scav_vector_unsigned_byte_32
  | scav_vector_single_float
  | scav_vector_double_float
  | scav_vector_complex_single_float
  | scav_vector_complex_double_float
  | scav_code_header
  | scav_closure_header
  | scav_instance
  | scav_fdefn
  deriving Repr, DecidableEq

/-- The transport handlers installed in `transother`. -/
inductive TransFn where
  | trans_lose
  | trans_immediate
  | trans_unboxed
  | trans_boxed
  | trans_base_string
  | trans_character_string
  | trans_vector_bit
  | trans_vector
  | trans_vector_nil
  | trans_vector_unsigned_byte_2
  | trans_vector_unsigned_byte_4
  | trans_vector_unsigned_byte_8
  | trans_vector_unsigned_byte_16
  | trans_vector_unsigned_byte_32
  | trans_vector_single_float
  | trans_vector_double_float
  | trans_vector_complex_single_float
  | trans_vector_complex_double_float
  | trans_code_header
  | trans_fun_header
  | trans_return_pc_header
  | trans_weak_pointer
  deriving Repr, DecidableEq

/-- The size handlers installed in `sizetab`. -/
inductive SizeFn where
  | size_lose
  | size_immediate
  | size_pointer
  | size_unboxed
  | size_boxed
  | size_base_string
  | size_character_string
  | size_vector_bit
  | size_vector
  | size_vector_nil
  | size_vector_unsigned_byte_2
  | size_vector_unsigned_byte_4
  | size_vector_unsigned_byte_8
  | size_vector_unsigned_byte_16
  | size_vector_unsigned_byte_32
  | size_vector_single_float
  | size_vector_double_float
  | size_vector_complex_single_float
  | size_vector_complex_double_float
  | size_code_header
  | size_weak_pointer
  deriving Repr, DecidableEq

/-- One array-slot assignment `t[i] = v`. -/
def table_update {α : Type} (t : Nat → α) (i : Nat) (v : α) : Nat → α :=
  fun j => if j = i then v else t j

/-- A sequence of assignments applied in program order (later writes
win). -/
def applyWrites {α : Type} (t : Nat → α) (ws : List (Nat × α)) : Nat → α :=
  ws.foldl (fun acc w => table_update acc w.1 w.2) t

/-- The `for (i = 0; i < 32; i++)` blocks of `gc_init_tables` that fill
one table row per lowtag for every value of the upper five bits, in the
program order of the source (even-fixnum, fun-pointer, list-pointer,
odd-fixnum, instance-pointer, other-pointer); `hL` is the handler
written at lowtag `L`. -/
def lowtagRows {α : Type} (h0 h1 h3 h4 h5 h7 : α) (n : Nat) :
    List (Nat × α) :=
  (List.range n).flatMap (fun i =>
    [(EVEN_FIXNUM_LOWTAG + 8 * i, h0), (FUN_POINTER_LOWTAG + 8 * i, h5),
     (LIST_POINTER_LOWTAG + 8 * i, h3), (ODD_FIXNUM_LOWTAG + 8 * i, h4),
     (INSTANCE_POINTER_LOWTAG + 8 * i, h1),
     (OTHER_POINTER_LOWTAG + 8 * i, h7)])

/-- The header-widetag `scavtab` assignments of `gc_init_tables`
(gc-common.c:1616-1747) in program order for this configuration
(`N_WORD_BITS == 32`, `LISP_FEATURE_X86_64`, not SPARC; the `#ifdef`s
for long floats and 60/63/64-bit element vectors are not taken). -/
def scavtab_header_writes : List (Nat × ScavFn) :=
  [(BIGNUM_WIDETAG, ScavFn.scav_unboxed),
   (RATIO_WIDETAG, ScavFn.scav_boxed),
   (SINGLE_FLOAT_WIDETAG, ScavFn.scav_unboxed),
   (DOUBLE_FLOAT_WIDETAG, ScavFn.scav_unboxed),
   (COMPLEX_WIDETAG, ScavFn.scav_boxed),
   (COMPLEX_SINGLE_FLOAT_WIDETAG, ScavFn.scav_unboxed),
   (COMPLEX_DOUBLE_FLOAT_WIDETAG, ScavFn.scav_unboxed),
   (SIMPLE_ARRAY_WIDETAG, ScavFn.scav_boxed),
   (SIMPLE_BASE_STRING_WIDETAG, ScavFn.scav_base_string),
   (SIMPLE_CHARACTER_STRING_WIDETAG, ScavFn.scav_character_string),
   (SIMPLE_BIT_VECTOR_WIDETAG, ScavFn.scav_vector_bit),
   (SIMPLE_ARRAY_NIL_WIDETAG, ScavFn.scav_vector_nil),
   (SIMPLE_ARRAY_UNSIGNED_BYTE_2_WIDETAG,
      ScavFn.scav_vector_unsigned_byte_2),
   (SIMPLE_ARRAY_UNSIGNED_BYTE_4_WIDETAG,
      ScavFn.scav_vector_unsigned_byte_4),
   (SIMPLE_ARRAY_UNSIGNED_BYTE_7_WIDETAG,
      ScavFn.scav_vector_unsigned_byte_8),
   (SIMPLE_ARRAY_UNSIGNED_BYTE_8_WIDETAG,
      ScavFn.scav_vector_unsigned_byte_8),
   (SIMPLE_ARRAY_UNSIGNED_BYTE_15_WIDETAG,
      ScavFn.scav_vector_unsigned_byte_16),
   (SIMPLE_ARRAY_UNSIGNED_BYTE_16_WIDETAG,
      ScavFn.scav_vector_unsigned_byte_16),
   (SIMPLE_ARRAY_UNSIGNED_BYTE_29_WIDETAG,
      ScavFn.scav_vector_unsigned_byte_32),
   (SIMPLE_ARRAY_UNSIGNED_BYTE_31_WIDETAG,
      ScavFn.scav_vector_unsigned_byte_32),
   (SIMPLE_ARRAY_UNSIGNED_BYTE_32_WIDETAG,
      ScavFn.scav_vector_unsigned_byte_32),
   (SIMPLE_ARRAY_SIGNED_BYTE_8_WIDETAG,
      ScavFn.scav_vector_unsigned_byte_8),
   (SIMPLE_ARRAY_SIGNED_BYTE_16_WIDETAG,
      ScavFn.scav_vector_unsigned_byte_16),
   (SIMPLE_ARRAY_SIGNED_BYTE_30_WIDETAG,
      ScavFn.scav_vector_unsigned_byte_32),
   (SIMPLE_ARRAY_SIGNED_BYTE_32_WIDETAG,
      ScavFn.scav_vector_unsigned_byte_32),
   (SIMPLE_ARRAY_SINGLE_FLOAT_WIDETAG, ScavFn.scav_vector_single_float),
   (SIMPLE_ARRAY_DOUBLE_FLOAT_WIDETAG, ScavFn.scav_vector_double_float),
   (SIMPLE_ARRAY_COMPLEX_SINGLE_FLOAT_WIDETAG,
      ScavFn.scav_vector_complex_single_float),
   (SIMPLE_ARRAY_COMPLEX_DOUBLE_FLOAT_WIDETAG,
      ScavFn.scav_vector_complex_double_float),
   (COMPLEX_BASE_STRING_WIDETAG, ScavFn.scav_boxed),
   (COMPLEX_CHARACTER_STRING_WIDETAG, ScavFn.scav_boxed),
   (COMPLEX_VECTOR_NIL_WIDETAG, ScavFn.scav_boxed),
   (COMPLEX_BIT_VECTOR_WIDETAG, ScavFn.scav_boxed),
   (COMPLEX_VECTOR_WIDETAG, ScavFn.scav_boxed),
   (COMPLEX_ARRAY_WIDETAG, ScavFn.scav_boxed),
   (CODE_HEADER_WIDETAG, ScavFn.scav_code_header),
   (CLOSURE_HEADER_WIDETAG, ScavFn.scav_closure_header),
   (FUNCALLABLE_INSTANCE_HEADER_WIDETAG, ScavFn.scav_closure_header),
   (VALUE_CELL_HEADER_WIDETAG, ScavFn.scav_boxed),
   (SYMBOL_HEADER_WIDETAG, ScavFn.scav_boxed),
   (CHARACTER_WIDETAG, ScavFn.scav_immediate),
   (SAP_WIDETAG, ScavFn.scav_unboxed),
   (UNBOUND_MARKER_WIDETAG, ScavFn.scav_immediate),
   (NO_TLS_VALUE_MARKER_WIDETAG, ScavFn.scav_immediate),
   (INSTANCE_HEADER_WIDETAG, ScavFn.scav_instance),
   (FDEFN_WIDETAG, ScavFn.scav_fdefn)]

/-- The full `scavtab` assignment sequence: the pointer-lowtag rows
(gc-common.c:1603-1612), then the header-widetag entries. -/
def scavtab_writes : List (Nat × ScavFn) :=
  lowtagRows ScavFn.scav_immediate ScavFn.scav_instance_pointer
      ScavFn.scav_list_pointer ScavFn.scav_immediate
      ScavFn.scav_fun_pointer ScavFn.scav_other_pointer 32
  ++ scavtab_header_writes

/-- The `scavtab` table after `gc_init_tables`: all 256 slots default to
`scav_lose` (gc-common.c:1594-1596), then the assignments are applied in
program order. -/
def scavtab : Nat → ScavFn :=
  applyWrites (fun _ => ScavFn.scav_lose) scavtab_writes

/-- The `transother` assignments (gc-common.c:1750-1879): default
`trans_lose`, widetag entries only (no pointer rows). -/
def transother_writes : List (Nat × TransFn) :=
  [(BIGNUM_WIDETAG, TransFn.trans_unboxed),
   (RATIO_WIDETAG, TransFn.trans_boxed),
   (SINGLE_FLOAT_WIDETAG, TransFn.trans_unboxed),
   (DOUBLE_FLOAT_WIDETAG, TransFn.trans_unboxed),
   (COMPLEX_WIDETAG, TransFn.trans_boxed),
   (COMPLEX_SINGLE_FLOAT_WIDETAG, TransFn.trans_unboxed),
   (COMPLEX_DOUBLE_FLOAT_WIDETAG, TransFn.trans_unboxed),
   (SIMPLE_ARRAY_WIDETAG, TransFn.trans_boxed),
   (SIMPLE_BASE_STRING_WIDETAG, TransFn.trans_base_string),
   (SIMPLE_CHARACTER_STRING_WIDETAG, TransFn.trans_character_string),
   (SIMPLE_BIT_VECTOR_WIDETAG, TransFn.trans_vector_bit),
   (SIMPLE_VECTOR_WIDETAG, TransFn.trans_vector),
   (SIMPLE_ARRAY_NIL_WIDETAG, TransFn.trans_vector_nil),
   (SIMPLE_ARRAY_UNSIGNED_BYTE_2_WIDETAG,
      TransFn.trans_vector_unsigned_byte_2),
   (SIMPLE_ARRAY_UNSIGNED_BYTE_4_WIDETAG,
      TransFn.trans_vector_unsigned_byte_4),
   (SIMPLE_ARRAY_UNSIGNED_BYTE_7_WIDETAG,
      TransFn.trans_vector_unsigned_byte_8),
   (SIMPLE_ARRAY_UNSIGNED_BYTE_8_WIDETAG,
      TransFn.trans_vector_unsigned_byte_8),
   (SIMPLE_ARRAY_UNSIGNED_BYTE_15_WIDETAG,
      TransFn.trans_vector_unsigned_byte_16),
   (SIMPLE_ARRAY_UNSIGNED_BYTE_16_WIDETAG,
      TransFn.trans_vector_unsigned_byte_16),
   (SIMPLE_ARRAY_UNSIGNED_BYTE_29_WIDETAG,
      TransFn.trans_vector_unsigned_byte_32),
   (SIMPLE_ARRAY_UNSIGNED_BYTE_31_WIDETAG,
      TransFn.trans_vector_unsigned_byte_32),
   (SIMPLE_ARRAY_UNSIGNED_BYTE_32_WIDETAG,
      TransFn.trans_vector_unsigned_byte_32),
   (SIMPLE_ARRAY_SIGNED_BYTE_8_WIDETAG,
      TransFn.trans_vector_unsigned_byte_8),
   (SIMPLE_ARRAY_SIGNED_BYTE_16_WIDETAG,
      TransFn.trans_vector_unsigned_byte_16),
   (SIMPLE_ARRAY_SIGNED_BYTE_30_WIDETAG,
      TransFn.trans_vector_unsigned_byte_32),
   (SIMPLE_ARRAY_SIGNED_BYTE_32_WIDETAG,
      TransFn.trans_vector_unsigned_byte_32),
   (SIMPLE_ARRAY_SINGLE_FLOAT_WIDETAG, TransFn.trans_vector_single_float),
   (SIMPLE_ARRAY_DOUBLE_FLOAT_WIDETAG, TransFn.trans_vector_double_float),
   (SIMPLE_ARRAY_COMPLEX_SINGLE_FLOAT_WIDETAG,
      TransFn.trans_vector_complex_single_float),
   (SIMPLE_ARRAY_COMPLEX_DOUBLE_FLOAT_WIDETAG,
      TransFn.trans_vector_complex_double_float),
   (COMPLEX_BASE_STRING_WIDETAG, TransFn.trans_boxed),
   (COMPLEX_CHARACTER_STRING_WIDETAG, TransFn.trans_boxed),
   (COMPLEX_BIT_VECTOR_WIDETAG, TransFn.trans_boxed),
   (COMPLEX_VECTOR_NIL_WIDETAG, TransFn.trans_boxed),
   (COMPLEX_VECTOR_WIDETAG, TransFn.trans_boxed),
   (COMPLEX_ARRAY_WIDETAG, TransFn.trans_boxed),
   (CODE_HEADER_WIDETAG, TransFn.trans_code_header),
   (SIMPLE_FUN_HEADER_WIDETAG, TransFn.trans_fun_header),
   (RETURN_PC_HEADER_WIDETAG, TransFn.trans_return_pc_header),
   (CLOSURE_HEADER_WIDETAG, TransFn.trans_boxed),
   (FUNCALLABLE_INSTANCE_HEADER_WIDETAG, TransFn.trans_boxed),
   (VALUE_CELL_HEADER_WIDETAG, TransFn.trans_boxed),
   (SYMBOL_HEADER_WIDETAG, TransFn.trans_boxed),
   (CHARACTER_WIDETAG, TransFn.trans_immediate),
   (SAP_WIDETAG, TransFn.trans_unboxed),
   (UNBOUND_MARKER_WIDETAG, TransFn.trans_immediate),
   (NO_TLS_VALUE_MARKER_WIDETAG, TransFn.trans_immediate),
   (WEAK_POINTER_WIDETAG, TransFn.trans_weak_pointer),
   (INSTANCE_HEADER_WIDETAG, TransFn.trans_boxed),
   (FDEFN_WIDETAG, TransFn.trans_boxed)]

/-- The `transother` table after `gc_init_tables`. -/
def transother : Nat → TransFn :=
  applyWrites (fun _ => TransFn.trans_lose) transother_writes

/-- The `sizetab` assignments (gc-common.c:1882-2019): default
`size_lose`, pointer rows, then widetag entries. -/
def sizetab_writes : List (Nat × SizeFn) :=
  lowtagRows SizeFn.size_immediate SizeFn.size_pointer SizeFn.size_pointer
      SizeFn.size_immediate SizeFn.size_pointer SizeFn.size_pointer 32
  ++
  [(BIGNUM_WIDETAG, SizeFn.size_unboxed),
   (RATIO_WIDETAG, SizeFn.size_boxed),
   (SINGLE_FLOAT_WIDETAG, SizeFn.size_unboxed),
   (DOUBLE_FLOAT_WIDETAG, SizeFn.size_unboxed),
   (COMPLEX_WIDETAG, SizeFn.size_boxed),
   (COMPLEX_SINGLE_FLOAT_WIDETAG, SizeFn.size_unboxed),
   (COMPLEX_DOUBLE_FLOAT_WIDETAG, SizeFn.size_unboxed),
   (SIMPLE_ARRAY_WIDETAG, SizeFn.size_boxed),
   (SIMPLE_BASE_STRING_WIDETAG, SizeFn.size_base_string),
   (SIMPLE_CHARACTER_STRING_WIDETAG, SizeFn.size_character_string),
   (SIMPLE_BIT_VECTOR_WIDETAG, SizeFn.size_vector_bit),
   (SIMPLE_VECTOR_WIDETAG, SizeFn.size_vector),
   (SIMPLE_ARRAY_NIL_WIDETAG, SizeFn.size_vector_nil),
   (SIMPLE_ARRAY_UNSIGNED_BYTE_2_WIDETAG,
      SizeFn.size_vector_unsigned_byte_2),
   (SIMPLE_ARRAY_UNSIGNED_BYTE_4_WIDETAG,
      SizeFn.size_vector_unsigned_byte_4),
   (SIMPLE_ARRAY_UNSIGNED_BYTE_7_WIDETAG,
      SizeFn.size_vector_unsigned_byte_8),
   (SIMPLE_ARRAY_UNSIGNED_BYTE_8_WIDETAG,
      SizeFn.size_vector_unsigned_byte_8),
   (SIMPLE_ARRAY_UNSIGNED_BYTE_15_WIDETAG,
      SizeFn.size_vector_unsigned_byte_16),
   (SIMPLE_ARRAY_UNSIGNED_BYTE_16_WIDETAG,
      SizeFn.size_vector_unsigned_byte_16),
   (SIMPLE_ARRAY_UNSIGNED_BYTE_29_WIDETAG,
      SizeFn.size_vector_unsigned_byte_32),
   (SIMPLE_ARRAY_UNSIGNED_BYTE_31_WIDETAG,
      SizeFn.size_vector_unsigned_byte_32),
   (SIMPLE_ARRAY_UNSIGNED_BYTE_32_WIDETAG,
      SizeFn.size_vector_unsigned_byte_32),
   (SIMPLE_ARRAY_SIGNED_BYTE_8_WIDETAG,
      SizeFn.size_vector_unsigned_byte_8),
   (SIMPLE_ARRAY_SIGNED_BYTE_16_WIDETAG,
      SizeFn.size_vector_unsigned_byte_16),
   (SIMPLE_ARRAY_SIGNED_BYTE_30_WIDETAG,
      SizeFn.size_vector_unsigned_byte_32),
   (SIMPLE_ARRAY_SIGNED_BYTE_32_WIDETAG,
      SizeFn.size_vector_unsigned_byte_32),
   (SIMPLE_ARRAY_SINGLE_FLOAT_WIDETAG, SizeFn.size_vector_single_float),
   (SIMPLE_ARRAY_DOUBLE_FLOAT_WIDETAG, SizeFn.size_vector_double_float),
   (SIMPLE_ARRAY_COMPLEX_SINGLE_FLOAT_WIDETAG,
      SizeFn.size_vector_complex_single_float),
   (SIMPLE_ARRAY_COMPLEX_DOUBLE_FLOAT_WIDETAG,
      SizeFn.size_vector_complex_double_float),
   (COMPLEX_BASE_STRING_WIDETAG, SizeFn.size_boxed),
   (COMPLEX_CHARACTER_STRING_WIDETAG, SizeFn.size_boxed),
   (COMPLEX_VECTOR_NIL_WIDETAG, SizeFn.size_boxed),
   (COMPLEX_BIT_VECTOR_WIDETAG, SizeFn.size_boxed),
   (COMPLEX_VECTOR_WIDETAG, SizeFn.size_boxed),
   (COMPLEX_ARRAY_WIDETAG, SizeFn.size_boxed),
   (CODE_HEADER_WIDETAG, SizeFn.size_code_header),
   (CLOSURE_HEADER_WIDETAG, SizeFn.size_boxed),
   (FUNCALLABLE_INSTANCE_HEADER_WIDETAG, SizeFn.size_boxed),
   (VALUE_CELL_HEADER_WIDETAG, SizeFn.size_boxed),
   (SYMBOL_HEADER_WIDETAG, SizeFn.size_boxed),
   (CHARACTER_WIDETAG, SizeFn.size_immediate),
   (SAP_WIDETAG, SizeFn.size_unboxed),
   (UNBOUND_MARKER_WIDETAG, SizeFn.size_immediate),
   (NO_TLS_VALUE_MARKER_WIDETAG, SizeFn.size_immediate),
   (WEAK_POINTER_WIDETAG, SizeFn.size_weak_pointer),
   (INSTANCE_HEADER_WIDETAG, SizeFn.size_boxed),
   (FDEFN_WIDETAG, SizeFn.size_boxed)]

/-- The `sizetab` table after `gc_init_tables`. -/
def sizetab : Nat → SizeFn :=
  applyWrites (fun _ => SizeFn.size_lose) sizetab_writes

/-! ## The scavenge loop cursor (gc-common.c scavenge)

For this section memory is indexed in words (`lispobj*` arithmetic, as
in the C loop), and the loop is modelled at the granularity the claim
is about: how far the cursor advances at each position.  The count a
`scavtab` handler returns for the object at a position is abstracted as
`scavRet` (the handlers' memory writes never touch words beyond the
object the cursor is about to skip: slot updates hit the current slot,
and sub-scavenges hit the current object's payload). -/

/-- `fixnump(n)` (fixnump.h): the two fixnum lowtags are 0 and 4, so a
fixnum is a word whose low two bits are zero. -/
def fixnump (obj : Nat) : Bool := obj % 4 == 0

/-- The cursor advance of one scavenge-loop body execution
(gc-common.c:135-191; on this `LISP_FEATURE_X86_64` build the
non-descriptor single-word diagnostic branch at line 159 is not
compiled): a pointer to a forwarded from-space object, a pointer
elsewhere, and a fixnum each consume one word; a from-space pointer to
an unforwarded object consumes what its scavenger returns; any other
word is a header consuming what its widetag's scavenger returns. -/
def scavengeStep (scavRet : Nat → Nat → Nat) (mem : Mem)
    (from_space_p : Nat → Bool) (object_ptr : Nat) : Nat :=
  let object := mem object_ptr
  if is_lisp_pointer object then
    if from_space_p object then
      if forwarding_pointer_p mem (native_pointer object) then 1
      else scavRet (widetag_of object) object_ptr
    else 1
  else if fixnump object then 1
  else scavRet (widetag_of object) object_ptr

/-- The `for (object_ptr = start; object_ptr < end; object_ptr +=
n_words_scavenged)` loop of `scavenge` (gc-common.c:131), with fuel
bounding the number of iterations; returns the final `object_ptr`. -/
def scavengeLoop (step : Nat → Nat) : Nat → Nat → Nat → Nat
  | 0, object_ptr, _ => object_ptr
  | fuel + 1, object_ptr, endp =>
      if object_ptr < endp then
        scavengeLoop step fuel (object_ptr + step object_ptr) endp
      else object_ptr

/-- `scavenge(start, n_words)` (gc-common.c:124), returning the final
object pointer that the trailing `gc_assert(object_ptr == end)`
compares against `start + n_words`. -/
def scavenge (scavRet : Nat → Nat → Nat) (mem : Mem)
    (from_space_p : Nat → Bool) (fuel start n_words : Nat) : Nat :=
  scavengeLoop (scavengeStep scavRet mem from_space_p) fuel start
    (start + n_words)

/-- A well-formed range layout: starting at `start`, the range is a
sequence of slots/objects of the given positive sizes, and at each
object start the loop body consumes exactly that object's size. -/
def layoutOK (step : Nat → Nat) (start : Nat) : List Nat → Prop
  | [] => True
  | s :: rest => 0 < s ∧ step start = s ∧ layoutOK step (start + s) rest

/-! ## Stop-the-world (thread.c gc_stop_the_world)

The thread list and its spinlock, with the states thread.c uses.  The
`p == th` identity test is modelled as pid equality (pids are unique on
the list).  The peers' concurrent activity between the release of the
lock and the check — their GC-stop handlers run then — is modelled as an
arbitrary environment transformation `env` applied at the `sched_yield`
point. -/

/-- `STATE_RUNNING` / `STATE_STOPPING` / `STATE_STOPPED`. -/
inductive ThreadRunState where
  | running
  | stopping
  | stopped
  deriving Repr, DecidableEq

/-- One record of the `all_threads` list. -/
structure ThreadRec where
  pid : Nat
  state : ThreadRunState
  deriving Repr, DecidableEq

/-- The shared state `gc_stop_the_world` touches: the thread list (head
= most recently linked) and `all_threads_lock` (0 free, otherwise the
holder's pid). -/
structure World where
  all_threads : List ThreadRec
  lock : Nat
  deriving Repr, DecidableEq

/-- The signal pass of one iteration (thread.c:322-327): a running peer
is set to stopping (and is sent `SIG_STOP_FOR_GC`); the initiator and
non-running peers are skipped. -/
def stoppingUpdate (self : Nat) (p : ThreadRec) : ThreadRec :=
  if p.pid ≠ self ∧ p.state = ThreadRunState.running then
    { p with state := ThreadRunState.stopping }
  else p

/-- Everything one `do`-loop iteration of `gc_stop_the_world` produces,
instrumented: the world after the yield (on which the completion check
runs), the check's outcome, the pids signalled, the head pid captured at
the start of the pass, the lock value at the moment of the check, and
the world at the yield point. -/
structure IterResult where
  world : World
  finished : Bool
  kills : List Nat
  old_pid : Nat
  lock_at_check : Nat
  world_before_yield : World

/-- One iteration of the `do … while(!finished)` loop
(thread.c:320-340): acquire the spinlock, capture the list head's pid,
signal every running peer and mark it stopping, release the spinlock,
yield (the environment acts), then — without reacquiring the lock —
declare finished when the head pid is unchanged and every peer is
stopped. -/
def gc_stop_iteration (env : World → World) (self : Nat) (w : World) :
    IterResult :=
  let w1 : World := { w with lock := self }
  let old_pid := (w1.all_threads.headD ⟨0, ThreadRunState.stopped⟩).pid
  let kills := (w1.all_threads.filter (fun p =>
      decide (p.pid ≠ self) &&
      decide (p.state = ThreadRunState.running))).map (fun p => p.pid)
  let w2 : World :=
    { w1 with all_threads := w1.all_threads.map (stoppingUpdate self) }
  let w3 : World := { w2 with lock := 0 }
  let w4 := env w3
  let finished :=
    if (w4.all_threads.headD ⟨0, ThreadRunState.stopped⟩).pid = old_pid then
      w4.all_threads.all (fun p =>
        p.pid == self || decide (p.state = ThreadRunState.stopped))
    else false
  ⟨w4, finished, kills, old_pid, w4.lock, w3⟩

/-- `gc_stop_the_world()` (thread.c:314): iterate until the check
succeeds; `fuel` bounds the number of iterations (`none` = still
looping). -/
def gc_stop_the_world (env : Nat → World → World) (self : Nat) :
    Nat → World → Option World
  | 0, _ => none
  | fuel + 1, w =>
      let r := gc_stop_iteration (env fuel) self w
      if r.finished then some r.world
      else gc_stop_the_world env self fuel r.world

/-- A concrete two-thread world (initiator pid 1, one running peer). -/
def worldC : World := ⟨[⟨1, ThreadRunState.running⟩,
                        ⟨2, ThreadRunState.running⟩], 0⟩

/-- A concrete GC state for the list-transport witness: two from-space
cons cells at native addresses 16 and 32 (tagged 19 and 35), the first's
cdr pointing at the second, the second's cdr holding the fixnum 0; the
boxed-region free pointer is at 48. -/
def transW : GcState :=
  ⟨fun a => if a = 16 then 40 else if a = 20 then 35
            else if a = 32 then 44 else 0,
   48⟩

-- THEOREMS BELOW

/-! ## Theorems -/

/-- Helper: reading the word just written. -/
theorem writeWord_same (m : Mem) (a v : Nat) : writeWord m a v a = v := by
  simp [writeWord]

/-- Helper: reading another word. -/
theorem writeWord_other (m : Mem) (a v x : Nat) (h : x ≠ a) :
    writeWord m a v x = m x := by
  simp [writeWord, h]

/-- Helper: native pointers are 8-byte aligned. -/
theorem native_pointer_mod8 (q : Nat) : native_pointer q % 8 = 0 := by
  unfold native_pointer
  omega

/-- Helper: every cell of a chain is an unforwarded from-space list
pointer below the bound. -/
theorem chainCells_cell (st : GcState) (fsp : Nat → Bool) (bound : Nat) :
    ∀ (ps : List Nat) (t : Nat), chainCells st fsp bound ps t →
      ∀ q ∈ ps, lowtag_of q = LIST_POINTER_LOWTAG ∧ fsp q = true ∧
        st.mem (native_pointer q) ≠ 1 ∧ native_pointer q + 8 ≤ bound := by
  intro ps
  induction ps with
  | nil => intro t _ q hq; cases hq
  | cons p rest ih =>
      intro t hc q hq
      obtain ⟨h1, h2, h3, h4, _, _, hrest⟩ := hc
      rcases List.mem_cons.mp hq with rfl | hq'
      · exact ⟨h1, h2, h3, h4⟩
      · exact ih t hrest q hq'

/-- Helper: the chain predicate only looks at the cells' two words. -/
theorem chainCells_congr (st st' : GcState) (fsp : Nat → Bool)
    (bound : Nat) :
    ∀ (ps : List Nat) (t : Nat),
      (∀ q ∈ ps,
        st'.mem (native_pointer q) = st.mem (native_pointer q) ∧
        st'.mem (native_pointer q + 4) = st.mem (native_pointer q + 4)) →
      chainCells st fsp bound ps t → chainCells st' fsp bound ps t := by
  intro ps
  induction ps with
  | nil => intro t _ _; trivial
  | cons p rest ih =>
      intro t hmem hc
      obtain ⟨h1, h2, h3, h4, h5, h6, hrest⟩ := hc
      have hp := hmem p (List.mem_cons_self p rest)
      refine ⟨h1, h2, ?_, h4, ?_, h6, ?_⟩
      · rw [hp.1]; exact h3
      · rw [hp.2]; exact h5
      · exact ih t (fun q hq => hmem q (List.mem_cons_of_mem p hq)) hrest

/-- Helper: the chain predicate is monotone in the bound. -/
theorem chainCells_mono (st : GcState) (fsp : Nat → Bool)
    (bound bound' : Nat) (hb : bound ≤ bound') :
    ∀ (ps : List Nat) (t : Nat),
      chainCells st fsp bound ps t → chainCells st fsp bound' ps t := by
  intro ps
  induction ps with
  | nil => intro t _; trivial
  | cons p rest ih =>
      intro t hc
      obtain ⟨h1, h2, h3, h4, h5, h6, hrest⟩ := hc
      exact ⟨h1, h2, h3, by omega, h5, h6, ih t hrest⟩

/-- Helper: the copied-chain description only reads the original memory
at the cells' car words. -/
theorem copiedChain_congr_orig (mF : Mem) (m0 m0' : Mem) :
    ∀ (ps : List Nat) (F t : Nat),
      (∀ q ∈ ps, m0' (native_pointer q) = m0 (native_pointer q)) →
      copiedChain mF m0' F ps t → copiedChain mF m0 F ps t := by
  intro ps
  induction ps with
  | nil => intro F t _ _; trivial
  | cons p rest ih =>
      intro F t hmem hc
      obtain ⟨h1, h2, h3, h4, hrest⟩ := hc
      refine ⟨?_, h2, h3, h4, ?_⟩
      · rw [← hmem p (List.mem_cons_self p rest)]; exact h1
      · exact ih (F + 8) t
          (fun q hq => hmem q (List.mem_cons_of_mem p hq)) hrest


/-- Helper: peeling one iteration off the declarative restore list. -/
theorem loopRestores_succ (st : DynState) (binding n : Nat) :
    loopRestores st binding (n + 1)
      = (if (st.bindings (binding - 1)).symbol ≠ 0 then
           [((st.bindings (binding - 1)).symbol,
             (st.bindings (binding - 1)).value)]
         else []) ++ loopRestores st (binding - 1) n := by
  have harg : ∀ i : Nat, binding - 1 - (i + 1) = binding - 1 - 1 - i := by
    intro i; omega
  by_cases h : (st.bindings (binding - 1)).symbol ≠ 0
  · rw [if_pos h]
    unfold loopRestores
    rw [List.range_succ_eq_map,
      List.filterMap_cons_some (by simp only [Nat.sub_zero]; rw [if_pos h]),
      List.filterMap_map, List.singleton_append]
    congr 1
    apply List.filterMap_congr
    intro i _
    simp only [Function.comp_apply, harg i]
  · rw [if_neg h]
    unfold loopRestores
    rw [List.range_succ_eq_map,
      List.filterMap_cons_none (by simp only [Nat.sub_zero]; rw [if_neg h]),
      List.filterMap_map, List.nil_append]
    apply List.filterMap_congr
    intro i _
    simp only [Function.comp_apply, harg i]

/-- Helper: the declarative restore list only reads the binding records
at the indices the loop visits, so states agreeing there give the same
list. -/
theorem loopRestores_eq_of_bindings_eq (st st' : DynState) (binding n : Nat)
    (h : ∀ i, i < n →
      st'.bindings (binding - 1 - i) = st.bindings (binding - 1 - i)) :
    loopRestores st' binding n = loopRestores st binding n := by
  unfold loopRestores
  apply List.filterMap_congr
  intro i hi
  rw [h i (List.mem_range.mp hi)]

/-- Helper: the `unbind_to_here` loop, fully described: the cursor lands
at `binding - n`, the performed restores are exactly the non-cleared
records at indices `binding - 1` down to `binding - n`, in that order,
and the final symbol values are the initial ones overwritten by that
restore list. -/
theorem unbindToHereLoop_spec (n : Nat) :
    ∀ (st : DynState) (binding : Nat), n ≤ binding →
      (unbindToHereLoop n st binding).1.bsp = binding - n ∧
      (unbindToHereLoop n st binding).2 = loopRestores st binding n ∧
      (unbindToHereLoop n st binding).1.symValue
        = applyRestores st.symValue (loopRestores st binding n) := by
  induction n with
  | zero =>
      intro st binding _
      simp [unbindToHereLoop, loopRestores, applyRestores]
  | succ n ih =>
      intro st binding hle
      by_cases h : (st.bindings (binding - 1)).symbol ≠ 0
      · -- the record is live: it is restored and its symbol field cleared
        have hstep : unbindToHereStep st binding
            = (unbindRestoreState st (binding - 1),
               some ((st.bindings (binding - 1)).symbol,
                     (st.bindings (binding - 1)).value)) := by
          unfold unbindToHereStep unbindRestoreState writeBinding
            setSymbolValue
          rw [if_pos h]
        have hrun : unbindToHereLoop (n + 1) st binding
            = ((unbindToHereLoop n (unbindRestoreState st (binding - 1))
                  (binding - 1)).1,
               ((st.bindings (binding - 1)).symbol,
                (st.bindings (binding - 1)).value)
                 :: (unbindToHereLoop n (unbindRestoreState st (binding - 1))
                      (binding - 1)).2) := by
          simp only [unbindToHereLoop]
          rw [hstep]
          simp only [Option.toList_some, List.singleton_append]
        have hb : n ≤ binding - 1 := by omega
        obtain ⟨ih1, ih2, ih3⟩ :=
          ih (unbindRestoreState st (binding - 1)) (binding - 1) hb
        have hbind : ∀ i, i < n →
            (unbindRestoreState st (binding - 1)).bindings
                (binding - 1 - 1 - i)
              = st.bindings (binding - 1 - 1 - i) := by
          intro i hi
          have hne : binding - 1 - 1 - i ≠ binding - 1 := by omega
          simp only [unbindRestoreState, if_neg hne]
        have htr : loopRestores (unbindRestoreState st (binding - 1))
              (binding - 1) n
            = loopRestores st (binding - 1) n :=
          loopRestores_eq_of_bindings_eq st _ (binding - 1) n hbind
        refine ⟨?_, ?_, ?_⟩
        · rw [hrun]; rw [ih1]; omega
        · rw [hrun]
          rw [loopRestores_succ, if_pos h, List.singleton_append]
          simp only [ih2, htr]
        · rw [hrun]
          rw [loopRestores_succ, if_pos h, List.singleton_append]
          simp only [applyRestores]
          rw [ih3, htr]
          rfl
      · -- the record was cleared: it is skipped unchanged
        have hstep : unbindToHereStep st binding = (st, none) := by
          unfold unbindToHereStep
          rw [if_neg h]
        have hrun : unbindToHereLoop (n + 1) st binding
            = ((unbindToHereLoop n st (binding - 1)).1,
               (unbindToHereLoop n st (binding - 1)).2) := by
          simp only [unbindToHereLoop]
          rw [hstep]
          rfl
        have hb : n ≤ binding - 1 := by omega
        obtain ⟨ih1, ih2, ih3⟩ := ih st (binding - 1) hb
        refine ⟨?_, ?_, ?_⟩
        · rw [hrun]; rw [ih1]; omega
        · rw [hrun]
          rw [loopRestores_succ, if_neg h, List.nil_append]
          exact ih2
        · rw [hrun]
          rw [loopRestores_succ, if_neg h, List.nil_append]
          exact ih3

/-- C4: `bind_variable(s, v)` immediately followed by `unbind()`, with
no intervening binding-stack operation, leaves both the symbol's value
and the binding-stack pointer exactly as they were before the bind. -/
theorem bind_unbind_round_trip (s v : Nat) (st : DynState) :
    (unbind (bind_variable s v st)).symValue s = st.symValue s ∧
    (unbind (bind_variable s v st)).bsp = st.bsp := by
  unfold bind_variable unbind writeBinding setSymbolValue
  simp

/-- C5: for a marker at or below the current binding-stack pointer,
`unbind_to_here` leaves the binding-stack pointer equal to the marker,
restores each popped record with a non-cleared symbol field exactly once
(the trace of restores is exactly the non-cleared records from the top
of the stack down to the marker, each with its saved value), and the
final symbol values are the initial ones overwritten by that restore
trace; cleared records are skipped. -/
theorem unbind_to_here_spec (target : Nat) (st : DynState)
    (h : target ≤ st.bsp) :
    (unbind_to_here target st).1.bsp = target ∧
    (unbind_to_here target st).2 = expectedRestores st target ∧
    (unbind_to_here target st).1.symValue
      = applyRestores st.symValue (expectedRestores st target) := by
  obtain ⟨h1, h2, h3⟩ :=
    unbindToHereLoop_spec (st.bsp - target) st st.bsp (by omega)
  refine ⟨?_, ?_, ?_⟩
  · rw [unbind_to_here, h1]; omega
  · rw [unbind_to_here, h2]; rfl
  · rw [unbind_to_here, h3]; rfl

/-- Witness for C5: a concrete three-record stack unwound to marker 1;
the record at index 1 is cleared and skipped, the records at indices 2
and 0 both bind symbol 2, and the final value of symbol 2 is the saved
value of the lowest popped record. -/
theorem unbind_to_here_spec_witness :
    1 ≤ dynW.bsp ∧
    ((unbind_to_here 1 dynW).1.bsp = 1 ∧
     (unbind_to_here 1 dynW).2 = expectedRestores dynW 1 ∧
     (unbind_to_here 1 dynW).1.symValue
       = applyRestores dynW.symValue (expectedRestores dynW 1)) :=
  ⟨by decide, unbind_to_here_spec 1 dynW (by decide)⟩

/-- C1: after the scavenge loop quiesces, `scan_weak_pointers`
post-processes every weak pointer on the per-GC list: a value slot not
holding a from-space pointer is left unchanged; a forwarded referent
overwrites the value slot with the forwarding destination; otherwise the
value slot becomes `NIL` and the broken flag becomes `T`.  Consequently
(given that forwarding destinations lie outside from-space and `NIL` is
not in from-space) no weak pointer's value remains a stale from-space
address. -/
theorem scan_weak_pointers_spec (mem : Mem) (from_space_p : Nat → Bool)
    (wps : List WeakPointer)
    (hfwd : ∀ a, mem a = 1 → from_space_p (mem (a + 4)) = false)
    (hnil : from_space_p NIL_ref = false) :
    scan_weak_pointers mem from_space_p wps
        = wps.map (scan_weak_pointer mem from_space_p) ∧
    ∀ wp ∈ wps,
      (¬(is_lisp_pointer wp.value = true ∧ from_space_p wp.value = true) →
        scan_weak_pointer mem from_space_p wp = wp) ∧
      (is_lisp_pointer wp.value = true → from_space_p wp.value = true →
        forwarding_pointer_p mem (native_pointer wp.value) = true →
        scan_weak_pointer mem from_space_p wp
          = { wp with value :=
                forwarding_pointer_value mem (native_pointer wp.value) }) ∧
      (is_lisp_pointer wp.value = true → from_space_p wp.value = true →
        forwarding_pointer_p mem (native_pointer wp.value) = false →
        scan_weak_pointer mem from_space_p wp = ⟨NIL_ref, T_ref⟩) ∧
      ¬(is_lisp_pointer (scan_weak_pointer mem from_space_p wp).value = true
          ∧ from_space_p (scan_weak_pointer mem from_space_p wp).value
              = true) := by
  refine ⟨rfl, ?_⟩
  intro wp _
  by_cases h : is_lisp_pointer wp.value = true ∧ from_space_p wp.value = true
  · by_cases hf :
        forwarding_pointer_p mem (native_pointer wp.value) = true
    · have hwp : scan_weak_pointer mem from_space_p wp
          = { wp with value :=
                forwarding_pointer_value mem (native_pointer wp.value) } := by
        unfold scan_weak_pointer
        rw [if_neg (not_not_intro h), if_pos hf]
      refine ⟨fun hc => absurd h hc, fun _ _ _ => hwp, fun _ _ hnf => ?_,
        ?_⟩
      · rw [hf] at hnf; exact absurd hnf (by simp)
      · rw [hwp]
        intro hc
        have h1 : mem (native_pointer wp.value) = 1 := by
          simpa [forwarding_pointer_p] using hf
        have := hfwd (native_pointer wp.value) h1
        rw [forwarding_pointer_value] at hc
        rw [this] at hc
        exact absurd hc.2 (by simp)
    · have hwp : scan_weak_pointer mem from_space_p wp
          = ⟨NIL_ref, T_ref⟩ := by
        unfold scan_weak_pointer
        rw [if_neg (not_not_intro h), if_neg hf]
      refine ⟨fun hc => absurd h hc, fun _ _ hff => absurd hff hf,
        fun _ _ _ => hwp, ?_⟩
      · rw [hwp]
        intro hc
        exact absurd hc.2 (by simp [hnil])
  · have hwp : scan_weak_pointer mem from_space_p wp = wp := by
      unfold scan_weak_pointer
      rw [if_pos h]
    refine ⟨fun _ => hwp, fun h1 h2 _ => absurd ⟨h1, h2⟩ h,
      fun h1 h2 _ => absurd ⟨h1, h2⟩ h, ?_⟩
    · rw [hwp]; exact h

/-- Witness for C1: a concrete memory with no forwarding words, a
from-space predicate covering low addresses, and a two-element weak
pointer list (one referent unforwarded and thus broken, one fixnum value
left alone). -/
theorem scan_weak_pointers_spec_witness :
    scan_weak_pointers (fun _ => 0) (fun v => decide (v < 4096))
        [⟨19, 0⟩, ⟨16, 0⟩]
      = [⟨19, 0⟩, (⟨16, 0⟩ : WeakPointer)].map
          (scan_weak_pointer (fun _ => 0) (fun v => decide (v < 4096))) :=
  (scan_weak_pointers_spec (fun _ => 0) (fun v => decide (v < 4096))
    [⟨19, 0⟩, ⟨16, 0⟩] (fun a ha => by simp at ha) (by decide)).1

/-- C7: if the free-interrupt-context index is nonzero, `purify` returns
zero without transporting anything: the read-only and static free
pointers, the dynamic space, and indeed the whole state are exactly as
before the call. -/
theorem purify_refusal (body : Nat → Nat → PurifyState → PurifyState)
    (static_roots read_only_roots : Nat) (st : PurifyState)
    (h : fixnum_value st.free_interrupt_context_index ≠ 0) :
    (purify body static_roots read_only_roots st).2 = 0 ∧
    (purify body static_roots read_only_roots st).1.read_only_free
        = st.read_only_free ∧
    (purify body static_roots read_only_roots st).1.static_free
        = st.static_free ∧
    (purify body static_roots read_only_roots st).1.dynamic_space
        = st.dynamic_space ∧
    (purify body static_roots read_only_roots st).1 = st := by
  unfold purify
  rw [if_pos h]
  exact ⟨rfl, rfl, rfl, rfl, rfl⟩

/-- Witness for C7: a concrete state with one live interrupt context
(raw fixnum 4, i.e. `fixnum_value` 1). -/
theorem purify_refusal_witness :
    fixnum_value (4 : Nat) ≠ 0 ∧
    (purify (fun _ _ st => st) 0 0 ⟨4, 10, 20, fun _ => 0⟩).2 = 0 ∧
    (purify (fun _ _ st => st) 0 0 ⟨4, 10, 20, fun _ => 0⟩).1
        = ⟨4, 10, 20, fun _ => 0⟩ :=
  ⟨by decide,
   (purify_refusal (fun _ _ st => st) 0 0 ⟨4, 10, 20, fun _ => 0⟩
      (by decide)).1,
   (purify_refusal (fun _ _ st => st) 0 0 ⟨4, 10, 20, fun _ => 0⟩
      (by decide)).2.2.2.2⟩

/-- C9: `purify` returns 0 on every path — on the soft refusal and on
full completion alike — so the return value cannot distinguish the
two. -/
theorem purify_always_returns_zero
    (body : Nat → Nat → PurifyState → PurifyState)
    (static_roots read_only_roots : Nat) (st : PurifyState) :
    (purify body static_roots read_only_roots st).2 = 0 := by
  unfold purify
  by_cases h : fixnum_value st.free_interrupt_context_index ≠ 0
  · rw [if_pos h]
  · rw [if_neg h]

/-- C3 counterexample: a signal arriving in a pseudo-atomic region with
interrupts enabled is deferred (return 1), but the interrupt-pending bit
is NOT set — contradicting the claim that every deferral sets the
interrupt-pending bit. -/
theorem maybe_defer_handler_pending_counterexample :
    (maybe_defer_handler id 9 10 11 intrPA).2 = true ∧
    (maybe_defer_handler id 9 10 11 intrPA).1.interrupt_pending = false := by
  decide

/-- C3 (amended): a signal arriving while interrupts are disabled, or
while the thread is pseudo-atomic and not in a foreign call, is
deferred: `maybe_defer_handler` stores the handler, signal number,
siginfo and the interrupted context's signal mask into the pending
record and returns 1.  In the interrupts-disabled case it sets the
interrupt-pending bit (leaving pseudo-atomic-interrupted alone); in the
pseudo-atomic case it sets the pseudo-atomic-interrupted flag and leaves
the interrupt-pending bit unchanged. -/
theorem maybe_defer_handler_defers (add_blockable : Nat → Nat)
    (handler signal info : Nat) (st : IntrState)
    (h : st.interrupts_enabled = false ∨
        (st.foreign_function_call_active = false ∧
         st.pseudo_atomic_atomic = true)) :
    (maybe_defer_handler add_blockable handler signal info st).2 = true ∧
    (maybe_defer_handler add_blockable handler signal info
        st).1.pending_handler = handler ∧
    (maybe_defer_handler add_blockable handler signal info
        st).1.pending_signal = signal ∧
    (maybe_defer_handler add_blockable handler signal info
        st).1.pending_info = info ∧
    (maybe_defer_handler add_blockable handler signal info
        st).1.pending_mask = st.context_sigmask ∧
    (st.interrupts_enabled = false →
      (maybe_defer_handler add_blockable handler signal info
          st).1.interrupt_pending = true ∧
      (maybe_defer_handler add_blockable handler signal info
          st).1.pseudo_atomic_interrupted = st.pseudo_atomic_interrupted) ∧
    (st.interrupts_enabled = true →
      (maybe_defer_handler add_blockable handler signal info
          st).1.pseudo_atomic_interrupted = true ∧
      (maybe_defer_handler add_blockable handler signal info
          st).1.interrupt_pending = st.interrupt_pending) := by
  by_cases hi : st.interrupts_enabled = false
  · simp [maybe_defer_handler, store_signal_data_for_later, hi]
  · have hpa : st.foreign_function_call_active = false ∧
        st.pseudo_atomic_atomic = true := h.resolve_left hi
    simp [maybe_defer_handler, store_signal_data_for_later, hi, hpa]

/-- Witness for the amended C3 at a concrete pseudo-atomic state. -/
theorem maybe_defer_handler_defers_witness :
    (maybe_defer_handler id 9 10 11 intrPA).2 = true ∧
    (maybe_defer_handler id 9 10 11 intrPA).1.pending_mask
      = intrPA.context_sigmask :=
  ⟨(maybe_defer_handler_defers id 9 10 11 intrPA (Or.inr (by decide))).1,
   (maybe_defer_handler_defers id 9 10 11 intrPA
      (Or.inr (by decide))).2.2.2.2.1⟩

/-- Helper: a query outside the written keys falls through to the
table's prior contents. -/
theorem applyWrites_not_mem {α : Type} (t : Nat → α) (ws : List (Nat × α))
    (x : Nat) (h : x ∉ ws.map Prod.fst) : applyWrites t ws x = t x := by
  induction ws generalizing t with
  | nil => rfl
  | cons w ws ih =>
      simp only [List.map_cons, List.mem_cons, not_or] at h
      have hstep : applyWrites t (w :: ws) x
          = applyWrites (table_update t w.1 w.2) ws x := rfl
      rw [hstep, ih _ h.2]
      unfold table_update
      rw [if_neg h.1]

/-- Helper: sequential writes split across an append. -/
theorem applyWrites_append {α : Type} (t : Nat → α)
    (ws1 ws2 : List (Nat × α)) (x : Nat) :
    applyWrites t (ws1 ++ ws2) x = applyWrites (applyWrites t ws1) ws2 x := by
  unfold applyWrites
  rw [List.foldl_append]

/-- Helper: an odd index is none of a list of keys that are all ≡ 2
(mod 4) (widetags carry an other-immediate lowtag, hence are even). -/
theorem not_mem_of_even_keys (ws : List Nat) (x : Nat)
    (hws : ∀ k ∈ ws, k % 4 = 2) (hx : x % 2 = 1) : x ∉ ws := by
  intro hmem
  have := hws x hmem
  omega

/-- Helper: a six-write block is queried last write first. -/
theorem applyWrites_six {α : Type} (T : Nat → α) (k1 k2 k3 k4 k5 k6 : Nat)
    (v1 v2 v3 v4 v5 v6 : α) (x : Nat) :
    applyWrites T
        [(k1, v1), (k2, v2), (k3, v3), (k4, v4), (k5, v5), (k6, v6)] x
      = if x = k6 then v6 else if x = k5 then v5 else if x = k4 then v4
        else if x = k3 then v3 else if x = k2 then v2
        else if x = k1 then v1 else T x := by
  simp only [applyWrites, List.foldl_cons, List.foldl_nil, table_update]

/-- Helper: what the pointer-lowtag row loop leaves at each index: for
indices below `8 * n`, the handler selected by the index's lowtag
(nothing is written at the two other-immediate lowtags); above, the
prior table contents. -/
theorem lowtagRows_query {α : Type} (h0 h1 h3 h4 h5 h7 : α) (n : Nat) :
    ∀ (t : Nat → α) (x : Nat),
      applyWrites t (lowtagRows h0 h1 h3 h4 h5 h7 n) x =
        if x < 8 * n then
          (if x % 8 = 0 then h0 else if x % 8 = 1 then h1
           else if x % 8 = 3 then h3 else if x % 8 = 4 then h4
           else if x % 8 = 5 then h5 else if x % 8 = 7 then h7 else t x)
        else t x := by
  induction n with
  | zero =>
      intro t x
      simp [lowtagRows, applyWrites]
  | succ n ih =>
      intro t x
      have hsplit : lowtagRows h0 h1 h3 h4 h5 h7 (n + 1)
          = lowtagRows h0 h1 h3 h4 h5 h7 n ++
            [(EVEN_FIXNUM_LOWTAG + 8 * n, h0),
             (FUN_POINTER_LOWTAG + 8 * n, h5),
             (LIST_POINTER_LOWTAG + 8 * n, h3),
             (ODD_FIXNUM_LOWTAG + 8 * n, h4),
             (INSTANCE_POINTER_LOWTAG + 8 * n, h1),
             (OTHER_POINTER_LOWTAG + 8 * n, h7)] := by
        unfold lowtagRows
        rw [List.range_succ, List.flatMap_append]
        simp
      rw [hsplit, applyWrites_append, applyWrites_six, ih]
      simp only [EVEN_FIXNUM_LOWTAG, FUN_POINTER_LOWTAG, LIST_POINTER_LOWTAG,
        ODD_FIXNUM_LOWTAG, INSTANCE_POINTER_LOWTAG, OTHER_POINTER_LOWTAG]
      by_cases hA : x < 8 * n
      · rw [if_neg (show ¬x = 7 + 8 * n by omega),
          if_neg (show ¬x = 1 + 8 * n by omega),
          if_neg (show ¬x = 4 + 8 * n by omega),
          if_neg (show ¬x = 3 + 8 * n by omega),
          if_neg (show ¬x = 5 + 8 * n by omega),
          if_neg (show ¬x = 0 + 8 * n by omega),
          if_pos hA, if_pos (show x < 8 * (n + 1) by omega)]
      · by_cases hB : x < 8 * (n + 1)
        · rw [if_pos hB, if_neg hA]
          by_cases e7 : x = 7 + 8 * n
          · rw [if_pos e7, if_neg (show ¬x % 8 = 0 by omega),
              if_neg (show ¬x % 8 = 1 by omega),
              if_neg (show ¬x % 8 = 3 by omega),
              if_neg (show ¬x % 8 = 4 by omega),
              if_neg (show ¬x % 8 = 5 by omega),
              if_pos (show x % 8 = 7 by omega)]
          rw [if_neg e7]
          by_cases e1 : x = 1 + 8 * n
          · rw [if_pos e1, if_neg (show ¬x % 8 = 0 by omega),
              if_pos (show x % 8 = 1 by omega)]
          rw [if_neg e1]
          by_cases e4 : x = 4 + 8 * n
          · rw [if_pos e4, if_neg (show ¬x % 8 = 0 by omega),
              if_neg (show ¬x % 8 = 1 by omega),
              if_neg (show ¬x % 8 = 3 by omega),
              if_pos (show x % 8 = 4 by omega)]
          rw [if_neg e4]
          by_cases e3 : x = 3 + 8 * n
          · rw [if_pos e3, if_neg (show ¬x % 8 = 0 by omega),
              if_neg (show ¬x % 8 = 1 by omega),
              if_pos (show x % 8 = 3 by omega)]
          rw [if_neg e3]
          by_cases e5 : x = 5 + 8 * n
          · rw [if_pos e5, if_neg (show ¬x % 8 = 0 by omega),
              if_neg (show ¬x % 8 = 1 by omega),
              if_neg (show ¬x % 8 = 3 by omega),
              if_neg (show ¬x % 8 = 4 by omega),
              if_pos (show x % 8 = 5 by omega)]
          rw [if_neg e5]
          by_cases e0 : x = 0 + 8 * n
          · rw [if_pos e0, if_pos (show x % 8 = 0 by omega)]
          rw [if_neg e0,
            if_neg (show ¬x % 8 = 0 by omega),
            if_neg (show ¬x % 8 = 1 by omega),
            if_neg (show ¬x % 8 = 3 by omega),
            if_neg (show ¬x % 8 = 4 by omega),
            if_neg (show ¬x % 8 = 5 by omega),
            if_neg (show ¬x % 8 = 7 by omega)]
        · rw [if_neg (show ¬x = 7 + 8 * n by omega),
            if_neg (show ¬x = 1 + 8 * n by omega),
            if_neg (show ¬x = 4 + 8 * n by omega),
            if_neg (show ¬x = 3 + 8 * n by omega),
            if_neg (show ¬x = 5 + 8 * n by omega),
            if_neg (show ¬x = 0 + 8 * n by omega),
            if_neg (show ¬x < 8 * n by omega), if_neg hB]

/-- C6: after `gc_init_tables`, every slot of the three 256-entry tables
that was not explicitly assigned still holds the corresponding "lose"
handler, every scavenge-table index whose low 3 bits are one of the four
pointer lowtags holds the matching pointer-chasing scavenger, and in
particular no header-widetag assignment overwrote a pointer-lowtag
slot. -/
theorem gc_init_tables_spec :
    (∀ w < 256, w ∉ scavtab_writes.map Prod.fst →
        scavtab w = ScavFn.scav_lose) ∧
    (∀ w < 256, w ∉ transother_writes.map Prod.fst →
        transother w = TransFn.trans_lose) ∧
    (∀ w < 256, w ∉ sizetab_writes.map Prod.fst →
        sizetab w = SizeFn.size_lose) ∧
    (∀ w < 256,
      (w % 8 = INSTANCE_POINTER_LOWTAG →
        scavtab w = ScavFn.scav_instance_pointer) ∧
      (w % 8 = LIST_POINTER_LOWTAG →
        scavtab w = ScavFn.scav_list_pointer) ∧
      (w % 8 = FUN_POINTER_LOWTAG →
        scavtab w = ScavFn.scav_fun_pointer) ∧
      (w % 8 = OTHER_POINTER_LOWTAG →
        scavtab w = ScavFn.scav_other_pointer)) := by
  have hkeys : ∀ k ∈ scavtab_header_writes.map Prod.fst, k % 4 = 2 := by
    decide
  refine ⟨?_, ?_, ?_, ?_⟩
  · intro w _ h
    exact applyWrites_not_mem _ _ _ h
  · intro w _ h
    exact applyWrites_not_mem _ _ _ h
  · intro w _ h
    exact applyWrites_not_mem _ _ _ h
  · intro w hw
    have hrow : ∀ (hx : w % 2 = 1),
        scavtab w
          = applyWrites (fun _ => ScavFn.scav_lose)
              (lowtagRows ScavFn.scav_immediate ScavFn.scav_instance_pointer
                ScavFn.scav_list_pointer ScavFn.scav_immediate
                ScavFn.scav_fun_pointer ScavFn.scav_other_pointer 32) w := by
      intro hx
      unfold scavtab scavtab_writes
      rw [applyWrites_append]
      exact applyWrites_not_mem _ _ _
        (not_mem_of_even_keys _ _ hkeys (by omega))
    refine ⟨?_, ?_, ?_, ?_⟩ <;> intro hmod
    · rw [hrow (by unfold INSTANCE_POINTER_LOWTAG at hmod; omega),
        lowtagRows_query]
      have hlt : w < 8 * 32 := by omega
      unfold INSTANCE_POINTER_LOWTAG at hmod
      simp [hlt, hmod]
    · rw [hrow (by unfold LIST_POINTER_LOWTAG at hmod; omega),
        lowtagRows_query]
      have hlt : w < 8 * 32 := by omega
      unfold LIST_POINTER_LOWTAG at hmod
      simp [hlt, hmod]
    · rw [hrow (by unfold FUN_POINTER_LOWTAG at hmod; omega),
        lowtagRows_query]
      have hlt : w < 8 * 32 := by omega
      unfold FUN_POINTER_LOWTAG at hmod
      simp [hlt, hmod]
    · rw [hrow (by unfold OTHER_POINTER_LOWTAG at hmod; omega),
        lowtagRows_query]
      have hlt : w < 8 * 32 := by omega
      unfold OTHER_POINTER_LOWTAG at hmod
      simp [hlt, hmod]

/-- Helper: with a layout whose sizes partition the range, the loop
cursor lands exactly on the range end. -/
theorem scavengeLoop_exact (step : Nat → Nat) :
    ∀ (sizes : List Nat) (fuel start : Nat),
      layoutOK step start sizes → sizes.length ≤ fuel →
      scavengeLoop step fuel start (start + sizes.sum)
        = start + sizes.sum := by
  intro sizes
  induction sizes with
  | nil =>
      intro fuel start _ _
      cases fuel with
      | zero => simp [scavengeLoop]
      | succ f => simp [scavengeLoop]
  | cons s rest ih =>
      intro fuel start hlay hfuel
      obtain ⟨hpos, hstep, hrest⟩ := hlay
      cases fuel with
      | zero => exact absurd hfuel (by simp)
      | succ f =>
          have hlt : start < start + (s :: rest).sum := by
            simp only [List.sum_cons]
            omega
          have he : start + (s :: rest).sum = (start + s) + rest.sum := by
            simp only [List.sum_cons]
            omega
          rw [scavengeLoop, if_pos hlt, hstep, he]
          exact ih f (start + s) hrest (by simpa using hfuel)

/-- C10: on a well-formed contiguous word range — per-object sizes
positive, consumed exactly, and partitioning the range — the scavenge
loop advances its cursor by exactly the count consumed for each slot or
inline object and terminates with the cursor exactly at
`start + n_words`, so the trailing assertion that the final object
pointer equals the range end never fires. -/
theorem scavenge_cursor_exact (scavRet : Nat → Nat → Nat) (mem : Mem)
    (from_space_p : Nat → Bool) (start : Nat) (sizes : List Nat)
    (fuel : Nat)
    (hlay : layoutOK (scavengeStep scavRet mem from_space_p) start sizes)
    (hfuel : sizes.length ≤ fuel) :
    scavenge scavRet mem from_space_p fuel start sizes.sum
      = start + sizes.sum :=
  scavengeLoop_exact (scavengeStep scavRet mem from_space_p) sizes fuel
    start hlay hfuel

/-- Witness for C10: a two-object range (one fixnum slot, one unboxed
header of size 2) scanned end to end. -/
theorem scavenge_cursor_exact_witness :
    scavenge (fun _ _ => 2) (fun i => if i = 1 then 10 else 0)
        (fun _ => false) 2 0 ([1, 2].sum)
      = 0 + [1, 2].sum :=
  scavenge_cursor_exact (fun _ _ => 2) (fun i => if i = 1 then 10 else 0)
    (fun _ => false) 0 [1, 2] 2
    ⟨by decide, by decide, by decide, by decide, trivial⟩ (by decide)

/-- C8 counterexample: in a concrete two-thread world the completion
check of `gc_stop_the_world` runs with the spinlock free (value 0, not
the initiator's pid 1): the lock is released before the yield and is
never reacquired for the check, contradicting the claim that the
initiator reacquires the lock and then checks. -/
theorem gc_stop_the_world_lock_counterexample :
    (gc_stop_iteration id 1 worldC).world_before_yield.lock = 0 ∧
    (gc_stop_iteration id 1 worldC).lock_at_check = 0 ∧
    (gc_stop_iteration id 1 worldC).lock_at_check ≠ 1 := by
  decide

/-- C8 (amended): each iteration acquires the spinlock, captures the
list head's pid, sets every running peer to stopping and sends the
GC-stop signal to exactly those peers, releases the lock and yields;
then, WITHOUT reacquiring the lock (the check runs with the lock free
whenever the peers leave it free across the yield), it checks that the
head pid is unchanged since the capture and that every peer is stopped;
`gc_stop_the_world` returns only from an iteration whose check
succeeded. -/
theorem gc_stop_the_world_spec (env : Nat → World → World) (self : Nat)
    (henv : ∀ n x, x.lock = 0 → (env n x).lock = 0) :
    (∀ n x,
      (gc_stop_iteration (env n) self x).world_before_yield.lock = 0 ∧
      (gc_stop_iteration (env n) self x).lock_at_check = 0 ∧
      (gc_stop_iteration (env n) self x).world_before_yield.all_threads
        = x.all_threads.map (stoppingUpdate self) ∧
      (gc_stop_iteration (env n) self x).kills
        = (x.all_threads.filter (fun p =>
            decide (p.pid ≠ self) &&
            decide (p.state = ThreadRunState.running))).map
            (fun p => p.pid)) ∧
    (∀ n x, (gc_stop_iteration (env n) self x).finished = true →
      ((gc_stop_iteration (env n) self
          x).world.all_threads.headD ⟨0, ThreadRunState.stopped⟩).pid
        = (gc_stop_iteration (env n) self x).old_pid ∧
      ∀ p ∈ (gc_stop_iteration (env n) self x).world.all_threads,
        p.pid = self ∨ p.state = ThreadRunState.stopped) ∧
    (∀ fuel w w', gc_stop_the_world env self fuel w = some w' →
      ∃ n wpre, (gc_stop_iteration (env n) self wpre).finished = true ∧
        (gc_stop_iteration (env n) self wpre).world = w') := by
  refine ⟨?_, ?_, ?_⟩
  · intro n x
    refine ⟨rfl, ?_, rfl, rfl⟩
    exact henv n _ rfl
  · intro n x hfin
    simp only [gc_stop_iteration] at hfin ⊢
    by_cases hh : ((env n
          { all_threads := List.map (stoppingUpdate self) x.all_threads,
            lock := 0 }).all_threads.headD
            ⟨0, ThreadRunState.stopped⟩).pid
        = (x.all_threads.headD ⟨0, ThreadRunState.stopped⟩).pid
    · rw [if_pos hh] at hfin
      refine ⟨hh, ?_⟩
      intro p hp
      have := (List.all_eq_true.mp hfin) p hp
      rcases Bool.or_eq_true_iff.mp this with h1 | h2
      · exact Or.inl (by simpa using h1)
      · exact Or.inr (of_decide_eq_true h2)
    · rw [if_neg hh] at hfin
      exact absurd hfin (by simp)
  · intro fuel
    induction fuel with
    | zero =>
        intro w w' hrun
        exact absurd hrun (by simp [gc_stop_the_world])
    | succ fuel ih =>
        intro w w' hrun
        unfold gc_stop_the_world at hrun
        by_cases hfin : (gc_stop_iteration (env fuel) self w).finished
          = true
        · rw [if_pos hfin] at hrun
          exact ⟨fuel, w, hfin, Option.some_injective _ hrun⟩
        · rw [if_neg hfin] at hrun
          exact ih _ _ hrun

/-- Witness for the amended C8: the identity environment keeps a free
lock free; in the concrete world the iteration's check runs unlocked and
the signalled peers are exactly the running peer (pid 2). -/
theorem gc_stop_the_world_spec_witness :
    (gc_stop_iteration (id : World → World) 1 worldC).lock_at_check = 0 ∧
    (gc_stop_iteration (id : World → World) 1 worldC).kills = [2] :=
  ⟨((gc_stop_the_world_spec (fun _ => id) 1 (fun _ _ h => h)).1 0
      worldC).2.1,
   by
     have h := ((gc_stop_the_world_spec (fun _ => id) 1
        (fun _ _ h => h)).1 0 worldC).2.2.2
     rw [h]
     decide⟩

/-- Helper: the linearization loop of `trans_list`, fully described.
Starting from a state whose most recent copy sits at `prev` and whose
next free cons slot is `st.free`, with the remaining chain `ps` ending
in terminal cdr `t`: the loop copies exactly the `ps` cells into
consecutive slots from `st.free`, chains `prev`'s cdr to the first copy,
installs forwarding pointers, stops at `t`, and touches nothing else
below the allocation frontier. -/
theorem trans_list_loop_spec (fsp : Nat → Bool) :
    ∀ (ps : List Nat) (t fuel : Nat) (st : GcState) (prev : Nat),
      ps.length < fuel →
      st.free % 8 = 0 → prev % 8 = 0 → prev + 8 ≤ st.free →
      chainCells st fsp prev ps t →
      termCond st fsp t →
      (trans_list_loop fsp fuel st (chainCdr ps t) prev).free
          = st.free + 8 * ps.length ∧
      copiedChain (trans_list_loop fsp fuel st (chainCdr ps t) prev).mem
          st.mem st.free ps t ∧
      (ps ≠ [] →
        (trans_list_loop fsp fuel st (chainCdr ps t) prev).mem (prev + 4)
          = st.free + 3) ∧
      (ps = [] → trans_list_loop fsp fuel st (chainCdr ps t) prev = st) ∧
      (∀ x, x < st.free → x ≠ prev + 4 →
        (∀ q ∈ ps, x ≠ native_pointer q ∧ x ≠ native_pointer q + 4) →
        (trans_list_loop fsp fuel st (chainCdr ps t) prev).mem x
          = st.mem x) := by
  intro ps
  induction ps with
  | nil =>
      intro t fuel st prev hfuel _ _ _ _ hterm
      cases fuel with
      | zero => simp at hfuel
      | succ f =>
          have hbreak : lowtag_of t ≠ LIST_POINTER_LOWTAG ∨ fsp t = false ∨
              forwarding_pointer_p st.mem (native_pointer t) = true := by
            rcases hterm with h | h | h
            · exact Or.inl h
            · exact Or.inr (Or.inl h)
            · exact Or.inr (Or.inr (by simp [forwarding_pointer_p, h.1]))
          have hrun : trans_list_loop fsp (f + 1) st (chainCdr [] t) prev
              = st := by
            simp only [chainCdr, trans_list_loop]
            rw [if_pos hbreak]
          rw [hrun]
          refine ⟨by simp, trivial, by simp, fun _ => rfl,
            fun x _ _ _ => rfl⟩
  | cons q qs ih =>
      intro t fuel st prev hfuel hfree8 hprev8 hprevle hchain hterm
      obtain ⟨hq3, hqf, hqnf, hqb, hlink, hdist, hchain'⟩ := hchain
      cases fuel with
      | zero => simp at hfuel
      | succ f =>
      have hcells := chainCells_cell st fsp prev qs t hchain'
      have hnbreak : ¬(lowtag_of q ≠ LIST_POINTER_LOWTAG ∨ fsp q = false ∨
          forwarding_pointer_p st.mem (native_pointer q) = true) := by
        push_neg
        exact ⟨hq3, by simp [hqf],
          by simp [forwarding_pointer_p, hqnf]⟩
      have hrun : trans_list_loop fsp (f + 1) st (chainCdr (q :: qs) t)
            prev
          = trans_list_loop fsp f
              ⟨writeWord (set_forwarding_pointer
                  (writeWord (writeWord st.mem st.free
                      (st.mem (native_pointer q)))
                    (st.free + 4)
                    ((writeWord st.mem st.free
                        (st.mem (native_pointer q)))
                      (native_pointer q + 4)))
                  (native_pointer q) (st.free + 3))
                (prev + 4) (st.free + 3),
               st.free + 8⟩
              ((writeWord (writeWord st.mem st.free
                    (st.mem (native_pointer q)))
                  (st.free + 4)
                  ((writeWord st.mem st.free (st.mem (native_pointer q)))
                    (native_pointer q + 4)))
                (native_pointer q + 4))
              st.free := by
        simp only [chainCdr, trans_list_loop, gc_alloc_cons, make_lispobj]
        rw [if_neg hnbreak, hq3]
        simp only [LIST_POINTER_LOWTAG]
      set b := st.free with hbdef
      set cc := native_pointer q with hccdef
      set m1 : Mem := writeWord st.mem b (st.mem cc) with hm1def
      set m2 : Mem := writeWord m1 (b + 4) (m1 (cc + 4)) with hm2def
      set m3 : Mem := set_forwarding_pointer m2 cc (b + 3) with hm3def
      set m4 : Mem := writeWord m3 (prev + 4) (b + 3) with hm4def
      set st' : GcState := ⟨m4, b + 8⟩ with hstpdef
      have hccm : cc % 8 = 0 := native_pointer_mod8 q
      have hstpfree : st'.free = b + 8 := rfl
      have hstpmem : st'.mem = m4 := rfl
      have hcdr2 : m2 (cc + 4) = chainCdr qs t := by
        rw [hm2def, writeWord_other _ _ _ _ (by omega), hm1def,
          writeWord_other _ _ _ _ (by omega)]
        exact hlink
      rw [hrun, hcdr2]
      have hm4read : ∀ x, x ≠ prev + 4 → x ≠ cc + 4 → x ≠ cc →
          x ≠ b + 4 → x ≠ b → m4 x = st.mem x := by
        intro x h1 h2 h3 h4 h5
        rw [hm4def, writeWord_other _ _ _ _ h1, hm3def,
          set_forwarding_pointer, writeWord_other _ _ _ _ h2,
          writeWord_other _ _ _ _ h3, hm2def,
          writeWord_other _ _ _ _ h4, hm1def,
          writeWord_other _ _ _ _ h5]
      have hm4b : m4 b = st.mem cc := by
        rw [hm4def, writeWord_other _ _ _ _ (by omega), hm3def,
          set_forwarding_pointer, writeWord_other _ _ _ _ (by omega),
          writeWord_other _ _ _ _ (by omega), hm2def,
          writeWord_other _ _ _ _ (by omega), hm1def, writeWord_same]
      have hm4b4 : m4 (b + 4) = chainCdr qs t := by
        rw [hm4def, writeWord_other _ _ _ _ (by omega), hm3def,
          set_forwarding_pointer, writeWord_other _ _ _ _ (by omega),
          writeWord_other _ _ _ _ (by omega), hm2def, writeWord_same,
          hm1def, writeWord_other _ _ _ _ (by omega)]
        exact hlink
      have hm4cc : m4 cc = 1 := by
        rw [hm4def, writeWord_other _ _ _ _ (by omega), hm3def,
          set_forwarding_pointer, writeWord_other _ _ _ _ (by omega),
          writeWord_same]
      have hm4cc4 : m4 (cc + 4) = b + 3 := by
        rw [hm4def, writeWord_other _ _ _ _ (by omega), hm3def,
          set_forwarding_pointer, writeWord_same]
      have hm4p4 : m4 (prev + 4) = b + 3 := by
        rw [hm4def, writeWord_same]
      have hcellsmem : ∀ q' ∈ qs,
          m4 (native_pointer q') = st.mem (native_pointer q') ∧
          m4 (native_pointer q' + 4) = st.mem (native_pointer q' + 4) := by
        intro q' hq'
        obtain ⟨_, _, _, hbq⟩ := hcells q' hq'
        have hmodq : native_pointer q' % 8 = 0 := native_pointer_mod8 q'
        have hdq : native_pointer q' ≠ cc := hdist q' hq'
        constructor
        · exact hm4read _ (by omega) (by omega) hdq (by omega) (by omega)
        · exact hm4read _ (by omega) (by omega) (by omega) (by omega)
            (by omega)
      have hchainIH : chainCells st' fsp b qs t := by
        refine chainCells_congr st st' fsp b qs t ?_ ?_
        · intro q' hq'
          exact hcellsmem q' hq'
        · exact chainCells_mono st fsp prev b (by omega) qs t hchain'
      have htermIH : termCond st' fsp t := by
        rcases hterm with h | h | h
        · exact Or.inl h
        · exact Or.inr (Or.inl h)
        · refine Or.inr (Or.inr ⟨?_, by omega⟩)
          have hmt : native_pointer t % 8 = 0 := native_pointer_mod8 t
          have hneq : native_pointer t ≠ cc := by
            intro he
            rw [he] at h
            exact hqnf h.1
          rw [hstpmem,
            hm4read _ (by omega) (by omega) hneq (by omega) (by omega)]
          exact h.1
      obtain ⟨ihfree, ihchain, ihprev, ihnil, ihframe⟩ :=
        ih t f st' b (by simp at hfuel; omega) (by omega) hfree8
          (by omega) hchainIH htermIH
      have hcellb : ∀ q' ∈ qs, native_pointer q' + 8 ≤ prev := by
        intro q' hq'
        exact (hcells q' hq').2.2.2
      refine ⟨?_, ?_, ?_, by simp, ?_⟩
      · rw [ihfree, hstpfree]
        simp only [List.length_cons]
        omega
      · refine ⟨?_, ?_, ?_, ?_, ?_⟩
        · rw [ihframe b (by omega) (by omega) ?_, hstpmem, hm4b]
          intro q' hq'
          have := hcellb q' hq'
          have := native_pointer_mod8 q'
          exact ⟨by omega, by omega⟩
        · cases qs with
          | nil =>
              rw [ihnil rfl, hstpmem, hm4b4]
              rfl
          | cons q' qs' =>
              rw [ihprev (by simp), hstpfree]
        · rw [ihframe cc (by omega) (by omega) ?_, hstpmem, hm4cc]
          intro q' hq'
          have := hcellb q' hq'
          have h1 := native_pointer_mod8 q'
          have h2 := hdist q' hq'
          exact ⟨fun he => h2 he.symm, by omega⟩
        · rw [ihframe (cc + 4) (by omega) (by omega) ?_, hstpmem, hm4cc4]
          intro q' hq'
          have := hcellb q' hq'
          have h1 := native_pointer_mod8 q'
          have h2 := hdist q' hq'
          exact ⟨by omega, by omega⟩
        · rw [hstpfree] at ihchain
          exact copiedChain_congr_orig _ st.mem st'.mem qs (b + 8) t
            (fun q' hq' => by rw [hstpmem]; exact (hcellsmem q' hq').1)
            ihchain
      · intro _
        rw [ihframe (prev + 4) (by omega) (by omega) ?_, hstpmem, hm4p4]
        intro q' hq'
        have := hcellb q' hq'
        have h1 := native_pointer_mod8 q'
        exact ⟨by omega, by omega⟩
      · intro x hx hxp hxcells
        obtain ⟨hxc, hxc4⟩ := hxcells q (List.mem_cons_self q qs)
        rw [ihframe x (by omega) (by omega)
            (fun q' hq' => hxcells q' (List.mem_cons_of_mem q hq')),
          hstpmem, hm4read x hxp hxc4 hxc (by omega) (by omega)]

/-- C2: for a from-space cons chain `q :: qs` (every cell an unforwarded
from-space cons below the allocation frontier, each cdr holding the next
cell, distinct cells) whose terminal cdr `t` is a non-list value, a
pointer outside from-space, or an already-forwarded cons, a single
`trans_list` call on the head returns the tagged address of the first of
`k = (q :: qs).length` new conses occupying `k` consecutive cons-sized
slots in allocation order (the free pointer advances by exactly `8 * k`),
each new cell holding the original car, each chaining its cdr to the
next new cell, the last holding `t`, and every original cell left
forwarded to its copy. -/
theorem trans_list_spec (fsp : Nat → Bool) (q : Nat) (qs : List Nat)
    (t fuel : Nat) (st : GcState)
    (hfuel : qs.length < fuel)
    (hfree8 : st.free % 8 = 0)
    (hchain : chainCells st fsp st.free (q :: qs) t)
    (hterm : termCond st fsp t) :
    (trans_list fsp fuel st q).2 = st.free + LIST_POINTER_LOWTAG ∧
    (trans_list fsp fuel st q).1.free = st.free + 8 * (q :: qs).length ∧
    copiedChain (trans_list fsp fuel st q).1.mem st.mem st.free
      (q :: qs) t := by
  obtain ⟨hq3, hqf, hqnf, hqb, hlink, hdist, hchain'⟩ := hchain
  have hcells := chainCells_cell st fsp st.free qs t hchain'
  have hrun : trans_list fsp fuel st q
      = (trans_list_loop fsp fuel
          ⟨set_forwarding_pointer
              (writeWord (writeWord st.mem st.free
                  (st.mem (native_pointer q)))
                (st.free + 4)
                ((writeWord st.mem st.free (st.mem (native_pointer q)))
                  (native_pointer q + 4)))
              (native_pointer q) (st.free + 3),
           st.free + 8⟩
          ((writeWord (writeWord st.mem st.free
                (st.mem (native_pointer q)))
              (st.free + 4)
              ((writeWord st.mem st.free (st.mem (native_pointer q)))
                (native_pointer q + 4)))
            (native_pointer q + 4))
          st.free,
         st.free + 3) := by
    simp only [trans_list, gc_alloc_cons, make_lispobj]
    rw [hq3]
    simp only [LIST_POINTER_LOWTAG]
  set b := st.free with hbdef
  set cc := native_pointer q with hccdef
  set m1 : Mem := writeWord st.mem b (st.mem cc) with hm1def
  set m2 : Mem := writeWord m1 (b + 4) (m1 (cc + 4)) with hm2def
  set m3 : Mem := set_forwarding_pointer m2 cc (b + 3) with hm3def
  set st2 : GcState := ⟨m3, b + 8⟩ with hst2def
  have hccm : cc % 8 = 0 := native_pointer_mod8 q
  have hst2free : st2.free = b + 8 := rfl
  have hst2mem : st2.mem = m3 := rfl
  have hcdr2 : m2 (cc + 4) = chainCdr qs t := by
    rw [hm2def, writeWord_other _ _ _ _ (by omega), hm1def,
      writeWord_other _ _ _ _ (by omega)]
    exact hlink
  rw [hrun, hcdr2]
  have hm3read : ∀ x, x ≠ cc + 4 → x ≠ cc → x ≠ b + 4 → x ≠ b →
      m3 x = st.mem x := by
    intro x h2 h3 h4 h5
    rw [hm3def, set_forwarding_pointer, writeWord_other _ _ _ _ h2,
      writeWord_other _ _ _ _ h3, hm2def, writeWord_other _ _ _ _ h4,
      hm1def, writeWord_other _ _ _ _ h5]
  have hm3b : m3 b = st.mem cc := by
    rw [hm3def, set_forwarding_pointer, writeWord_other _ _ _ _ (by omega),
      writeWord_other _ _ _ _ (by omega), hm2def,
      writeWord_other _ _ _ _ (by omega), hm1def, writeWord_same]
  have hm3b4 : m3 (b + 4) = chainCdr qs t := by
    rw [hm3def, set_forwarding_pointer, writeWord_other _ _ _ _ (by omega),
      writeWord_other _ _ _ _ (by omega), hm2def, writeWord_same,
      hm1def, writeWord_other _ _ _ _ (by omega)]
    exact hlink
  have hm3cc : m3 cc = 1 := by
    rw [hm3def, set_forwarding_pointer, writeWord_other _ _ _ _ (by omega),
      writeWord_same]
  have hm3cc4 : m3 (cc + 4) = b + 3 := by
    rw [hm3def, set_forwarding_pointer, writeWord_same]
  have hcellb : ∀ q' ∈ qs, native_pointer q' + 8 ≤ b := by
    intro q' hq'
    exact (hcells q' hq').2.2.2
  have hcellsmem : ∀ q' ∈ qs,
      m3 (native_pointer q') = st.mem (native_pointer q') ∧
      m3 (native_pointer q' + 4) = st.mem (native_pointer q' + 4) := by
    intro q' hq'
    have hbq := hcellb q' hq'
    have hmodq : native_pointer q' % 8 = 0 := native_pointer_mod8 q'
    have hdq : native_pointer q' ≠ cc := hdist q' hq'
    exact ⟨hm3read _ (by omega) hdq (by omega) (by omega),
      hm3read _ (by omega) (by omega) (by omega) (by omega)⟩
  have hchainL : chainCells st2 fsp b qs t :=
    chainCells_congr st st2 fsp b qs t (fun q' hq' => hcellsmem q' hq')
      hchain'
  have htermL : termCond st2 fsp t := by
    rcases hterm with h | h | h
    · exact Or.inl h
    · exact Or.inr (Or.inl h)
    · refine Or.inr (Or.inr ⟨?_, by omega⟩)
      have hmt : native_pointer t % 8 = 0 := native_pointer_mod8 t
      have hneq : native_pointer t ≠ cc := by
        intro he
        rw [he] at h
        exact hqnf h.1
      rw [hst2mem, hm3read _ (by omega) hneq (by omega) (by omega)]
      exact h.1
  obtain ⟨lfree, lchain, lprev, lnil, lframe⟩ :=
    trans_list_loop_spec fsp qs t fuel st2 b hfuel (by omega) hfree8
      (by omega) hchainL htermL
  refine ⟨by simp [LIST_POINTER_LOWTAG], ?_, ?_⟩
  · show (trans_list_loop fsp fuel st2 (chainCdr qs t) b).free
      = b + 8 * (q :: qs).length
    rw [lfree, hst2free]
    simp only [List.length_cons]
    omega
  · show copiedChain
      (trans_list_loop fsp fuel st2 (chainCdr qs t) b).mem st.mem b
      (q :: qs) t
    refine ⟨?_, ?_, ?_, ?_, ?_⟩
    · rw [lframe b (by omega) (by omega) ?_, hst2mem, hm3b]
      intro q' hq'
      have := hcellb q' hq'
      have := native_pointer_mod8 q'
      exact ⟨by omega, by omega⟩
    · cases qs with
      | nil =>
          rw [lnil rfl, hst2mem, hm3b4]
          rfl
      | cons q' qs' =>
          rw [lprev (by simp), hst2free]
    · rw [lframe cc (by omega) (by omega) ?_, hst2mem, hm3cc]
      intro q' hq'
      have := hcellb q' hq'
      have h1 := native_pointer_mod8 q'
      have h2 := hdist q' hq'
      exact ⟨fun he => h2 he.symm, by omega⟩
    · rw [lframe (cc + 4) (by omega) (by omega) ?_, hst2mem, hm3cc4]
      intro q' hq'
      have := hcellb q' hq'
      have h1 := native_pointer_mod8 q'
      have h2 := hdist q' hq'
      exact ⟨by omega, by omega⟩
    · rw [hst2free] at lchain
      exact copiedChain_congr_orig _ st.mem st2.mem qs (b + 8) t
        (fun q' hq' => by rw [hst2mem]; exact (hcellsmem q' hq').1)
        lchain

/-- Witness for C2: the concrete two-cell chain `19 → 35 → fixnum 0` in
`transW` is linearized into the two cons slots at 48 and 56. -/
theorem trans_list_spec_witness :
    (trans_list (fun a => decide (a < 48)) 2 transW 19).2
        = transW.free + LIST_POINTER_LOWTAG ∧
    (trans_list (fun a => decide (a < 48)) 2 transW 19).1.free
        = transW.free + 8 * (19 :: [35]).length ∧
    copiedChain (trans_list (fun a => decide (a < 48)) 2 transW 19).1.mem
      transW.mem transW.free (19 :: [35]) 0 :=
  trans_list_spec (fun a => decide (a < 48)) 19 [35] 0 2 transW
    (by decide) (by decide)
    ⟨by decide, by decide, by decide, by decide, by decide, by decide,
     by decide, by decide, by decide, by decide, by decide, by decide,
     trivial⟩
    (Or.inl (by decide))
